import Mathlib

/-!
Verification of the iron-session seal/unseal protocol and session lifecycle.

A shallow embedding of `src/core.ts` (iron-session, post-quantum variant).
JavaScript strings are modelled as lists of UTF-16 code units (`List Nat`),
byte arrays (`Uint8Array`) as lists of byte values (`List Nat`).  Exceptions
are modelled with `Except JsError`: a `.error` result is an exception that
propagates to the caller.

External collaborators (the `@noble/post-quantum` primitives, WebCrypto
AES-GCM, the `rfc4648` base64url codec, `JSON`, and the `cookie` serializer)
are modelled from their documented, fixed semantics.  The asymmetric
primitives are idealized deterministic schemes with the real ML-KEM-1024 /
ML-DSA-87 input/output lengths; AES-GCM is an ideal AEAD (decryption succeeds
exactly when key, IV and tag match the values fixed at encryption).
Randomness (`randomBytes`, the randomness inside `ml_kem1024.encapsulate`)
is passed in explicitly as seed parameters.
-/

set_option autoImplicit false

namespace IronSession

/-- UTF-16 code units of a Lean string literal (all literals used are ASCII). -/
def codes (s : String) : List Nat := s.data.map Char.toNat

/-- Rebuild a Lean `String` from code units (used for JSON object keys). -/
def strOfCodes (cs : List Nat) : String := String.mk (cs.map Char.ofNat)

/-- A JavaScript exception, identified by its message
(the only part of an exception `unsealData` inspects). -/
structure JsError where
  message : String
deriving Repr, DecidableEq

/-- Tests whether `p` is an initial run of `s` (modelling an anchored `RegExp` match). -/
def listStartsWith : List Nat → List Nat → Bool
  | [], _ => true
  | _ :: _, [] => false
  | p :: ps, c :: cs => p == c && listStartsWith ps cs

/-! ## base64url (the `rfc4648` package, `base64url.stringify` / `base64url.parse`) -/

/-- Character (code unit) of a 6-bit value in the base64url alphabet. -/
def b64Char (n : Nat) : Nat :=
  if n < 26 then 65 + n
  else if n < 52 then 97 + (n - 26)
  else if n < 62 then 48 + (n - 52)
  else if n = 62 then 45
  else 95

/-- The 6-bit value of a base64url alphabet character; `none` for a foreign character. -/
def b64Val (c : Nat) : Option Nat :=
  if 65 ≤ c ∧ c ≤ 90 then some (c - 65)
  else if 97 ≤ c ∧ c ≤ 122 then some (26 + (c - 97))
  else if 48 ≤ c ∧ c ≤ 57 then some (52 + (c - 48))
  else if c = 45 then some 62
  else if c = 95 then some 63
  else none

/-- Model of `base64url.stringify` with the default `pad: true`: 3-byte groups become
4 characters, a 1- or 2-byte tail is padded with `=` (code 61). -/
def base64urlStringify : List Nat → List Nat
  | [] => []
  | [b0] => [b64Char (b0 / 4), b64Char (b0 % 4 * 16), 61, 61]
  | [b0, b1] => [b64Char (b0 / 4), b64Char (b0 % 4 * 16 + b1 / 16), b64Char (b1 % 16 * 4), 61]
  | b0 :: b1 :: b2 :: rest =>
      b64Char (b0 / 4) :: b64Char (b0 % 4 * 16 + b1 / 16) :: b64Char (b1 % 16 * 4 + b2 / 64)
        :: b64Char (b2 % 64) :: base64urlStringify rest

/-- Error thrown by the `rfc4648` parser on a character outside the alphabet. -/
def invalidCharacterError : JsError := ⟨"Invalid character"⟩

/-- Error thrown by the `rfc4648` parser on an impossible input length. -/
def invalidPadError : JsError := ⟨"Invalid padding"⟩

/-- Decode a base64url string with padding already stripped: groups of 4
characters give 3 bytes, a tail of 2 or 3 characters gives 1 or 2 bytes,
a tail of 1 character is impossible, a foreign character is an error. -/
def b64ParseGroups : List Nat → Except JsError (List Nat)
  | [] => .ok []
  | [c0, c1] =>
      match b64Val c0, b64Val c1 with
      | some v0, some v1 => .ok [v0 * 4 + v1 / 16]
      | _, _ => .error invalidCharacterError
  | [c0, c1, c2] =>
      match b64Val c0, b64Val c1, b64Val c2 with
      | some v0, some v1, some v2 => .ok [v0 * 4 + v1 / 16, v1 % 16 * 16 + v2 / 4]
      | _, _, _ => .error invalidCharacterError
  | c0 :: c1 :: c2 :: c3 :: rest =>
      match b64Val c0, b64Val c1, b64Val c2, b64Val c3, b64ParseGroups rest with
      | some v0, some v1, some v2, some v3, .ok bs =>
          .ok ((v0 * 4 + v1 / 16) :: (v1 % 16 * 16 + v2 / 4) :: (v2 % 4 * 64 + v3) :: bs)
      | some _, some _, some _, some _, .error e => .error e
      | _, _, _, _, _ => .error invalidCharacterError
  | [_] => .error invalidPadError

/-- Trailing `=` padding characters removed. -/
def stripTrailingEq (s : List Nat) : List Nat := (s.reverse.dropWhile (· == 61)).reverse

/-- Model of `base64url.parse(s)` (strict): the input length must be a multiple of 4
with trailing `=` padding; used on the four embedded seal components. -/
def base64urlParse (s : List Nat) : Except JsError (List Nat) :=
  if s.length % 4 ≠ 0 then .error invalidPadError
  else b64ParseGroups (stripTrailingEq s)

/-- Model of `base64url.parse(s, { loose: true })`: padding optional; used on the
token payload. -/
def base64urlParseLoose (s : List Nat) : Except JsError (List Nat) :=
  b64ParseGroups (stripTrailingEq s)

/-! ## Idealized post-quantum primitives (`@noble/post-quantum`)

Deterministic models with the real ML-KEM-1024 and ML-DSA-87 parameter
lengths.  `expandBytes` is the model's pseudorandom byte expander. -/

/-- Toy compression of a byte list to a number (stands in for the hashing
inside the idealized primitives; only determinism matters to the program). -/
def byteHash (bs : List Nat) : Nat := bs.foldl (fun h b => (h * 131 + b + 1) % 65521) 17

/-- Expand a generator number into `n` pseudorandom bytes.  The first byte is
`x % 256`, so generators of different parity always give different outputs. -/
def expandBytes (x n : Nat) : List Nat := (List.range n).map (fun i => (x + i * (x % 251 + 1)) % 256)

def ML_KEM_PK_LENGTH : Nat := 1568
def ML_KEM_SK_LENGTH : Nat := 3168
def ML_KEM_CT_LENGTH : Nat := 1568
def ML_KEM_SS_LENGTH : Nat := 32
def ML_DSA_PK_LENGTH : Nat := 2592
def ML_DSA_SK_LENGTH : Nat := 4896
def ML_DSA_SIG_LENGTH : Nat := 4627

/-- Model of `ml_kem1024.keygen(seed)`: deterministic key pair of the real lengths. -/
def mlKemKeygen (seed : List Nat) : List Nat × List Nat :=
  let x := byteHash seed % 251
  ((x + 1) :: expandBytes x (ML_KEM_PK_LENGTH - 1),
   (x + 2) :: expandBytes x (ML_KEM_SK_LENGTH - 1))

/-- Model of `ml_kem1024.encapsulate(publicKey)` with its internal randomness made
explicit: a KEM ciphertext and a 32-byte shared secret (even generator). -/
def mlKemEncapsulate (pk rnd : List Nat) : List Nat × List Nat :=
  let y := byteHash (pk ++ rnd)
  (expandBytes y ML_KEM_CT_LENGTH, expandBytes (2 * y) ML_KEM_SS_LENGTH)

/-- Model of `ml_kem1024.decapsulate(cipherText, secretKey)`, idealized as a
deterministic function of both inputs (implicit-rejection style: any input
pair yields some 32-byte value, with an odd generator, so it never
coincides with an encapsulated secret).  The program under verification
never calls it on a matching (KEM ciphertext, secret key) pair — it passes
the AES-GCM ciphertext and the KEM *public* key — so only determinism and
the output length are relevant. -/
def mlKemDecapsulate (ct sk : List Nat) : List Nat :=
  expandBytes (2 * byteHash (ct ++ sk) + 1) ML_KEM_SS_LENGTH

/-- The unique idealized ML-DSA-87 signature for a message under the key
pair identified by its public key.  The leading signature byte folds in the
first message byte (keeping its parity), so in the model a change of the
first message byte is always detected by verification. -/
def mlDsaSigOf (msg pk : List Nat) : List Nat :=
  (msg.headD 0 + 2 * byteHash (msg ++ pk)) % 256
    :: expandBytes (byteHash (msg ++ pk)) (ML_DSA_SIG_LENGTH - 1)

/-- Model of `ml_dsa87.keygen(seed)`: deterministic key pair of the real lengths; the
secret key determines the public key (first secret-key byte carries the
generator). -/
def mlDsaKeygen (seed : List Nat) : List Nat × List Nat :=
  let x := byteHash seed % 251
  (expandBytes x ML_DSA_PK_LENGTH, (x + 1) :: expandBytes x (ML_DSA_SK_LENGTH - 1))

/-- Model of `ml_dsa87.sign(msg, secretKey)`. -/
def mlDsaSign (msg sk : List Nat) : List Nat :=
  mlDsaSigOf msg (expandBytes (sk.headD 1 - 1) ML_DSA_PK_LENGTH)

/-- Model of `ml_dsa87.verify(msg, sig, publicKey)`: succeeds exactly on the unique
signature for this message and key pair. -/
def mlDsaVerify (msg sig pk : List Nat) : Bool := sig == mlDsaSigOf msg pk

/-! ## Idealized WebCrypto AES-GCM (`crypto.subtle.encrypt` / `decrypt`) -/

def GCM_TAG_LENGTH : Nat := 16

/-- Keystream bytes derived from key and IV (generator tagged `* 4 + 2`,
distinct from every tag generator `* 4`). -/
def gcmKeystream (key iv : List Nat) (n : Nat) : List Nat :=
  expandBytes (byteHash (key ++ iv) * 4 + 2) n

/-- The 16-byte authentication tag over key, IV and ciphertext body.  The
leading tag byte folds in the first key byte (keeping its parity), so in
the model a decryption key disagreeing with the encryption key in its first
byte parity is always rejected. -/
def gcmTag (key iv body : List Nat) : List Nat :=
  (key.headD 0 + 2 * byteHash (key ++ iv ++ body)) % 256
    :: expandBytes (byteHash (key ++ iv ++ body) * 4) (GCM_TAG_LENGTH - 1)

/-- Model of `crypto.subtle.encrypt({name: AES-GCM, iv}, key, data)`: the ciphertext
is the masked plaintext followed by the 16-byte tag (WebCrypto appends the
tag to the ciphertext). -/
def aesGcmEncrypt (key iv data : List Nat) : List Nat :=
  (List.zipWith (fun p k => (p + k) % 256) data (gcmKeystream key iv data.length)) ++
    gcmTag key iv (List.zipWith (fun p k => (p + k) % 256) data (gcmKeystream key iv data.length))

/-- The `OperationError` WebCrypto decryption rejects with. -/
def operationError : JsError := ⟨"The operation failed for an operation-specific reason"⟩

/-- Model of `crypto.subtle.decrypt({name: AES-GCM, iv}, key, ct)`: authenticated
decryption — recomputes the tag from the presented key and IV and fails
(`OperationError`) unless it matches the one in the ciphertext. -/
def aesGcmDecrypt (key iv ct : List Nat) : Except JsError (List Nat) :=
  if ct.length < GCM_TAG_LENGTH then .error operationError
  else
    let body := ct.take (ct.length - GCM_TAG_LENGTH)
    let tag := ct.drop (ct.length - GCM_TAG_LENGTH)
    if tag == gcmTag key iv body then
      .ok (List.zipWith (fun c k => (c + 256 - k) % 256) body (gcmKeystream key iv body.length))
    else .error operationError

/-! ## JSON (`JSON.stringify` / `JSON.parse`)

JSON values as produced by `JSON.parse` and consumed by `JSON.stringify`.
The parser models `JSON.parse` on the grammar the program exercises
(objects, strings without escape sequences, integers, literals, arrays,
no interior whitespace — exactly what `JSON.stringify` emits); any other
input is a `SyntaxError`. -/

inductive Json where
  | null
  | bool (b : Bool)
  | num (n : Int)
  | str (s : List Nat)
  | arr (elems : List Json)
  | obj (fields : List (String × Json))
deriving Repr

/-- Decimal code units of a natural number. -/
def natCodes (n : Nat) : List Nat := (Nat.toDigits 10 n).map Char.toNat

/-- Decimal code units of an integer (code 45 is the minus sign). -/
def intCodes (n : Int) : List Nat :=
  if n < 0 then 45 :: natCodes n.natAbs else natCodes n.natAbs

/-- JSON string escaping of quote (34) and backslash (92); the strings the
program serializes (base64url text) contain neither. -/
def jsonEscape : List Nat → List Nat
  | [] => []
  | c :: rest => if c = 34 ∨ c = 92 then 92 :: c :: jsonEscape rest else c :: jsonEscape rest

mutual

/-- Model of `JSON.stringify` (no spacing, insertion order of object fields). -/
def Json.stringify : Json → List Nat
  | .null => codes "null"
  | .bool true => codes "true"
  | .bool false => codes "false"
  | .num n => intCodes n
  | .str s => 34 :: (jsonEscape s ++ [34])
  | .arr es => 91 :: (Json.stringifyElems es ++ [93])
  | .obj fs => 123 :: (Json.stringifyFields fs ++ [125])

/-- Comma-separated serialization of array elements. -/
def Json.stringifyElems : List Json → List Nat
  | [] => []
  | [e] => e.stringify
  | e :: rest => e.stringify ++ (44 :: Json.stringifyElems rest)

/-- Comma-separated serialization of object members. -/
def Json.stringifyFields : List (String × Json) → List Nat
  | [] => []
  | [(k, v)] => 34 :: (jsonEscape (codes k) ++ (34 :: 58 :: v.stringify))
  | (k, v) :: rest =>
      34 :: (jsonEscape (codes k) ++ (34 :: 58 :: v.stringify)) ++ (44 :: Json.stringifyFields rest)

end

/-- Model of `SyntaxError: Unexpected token` (malformed JSON). -/
def unexpectedTokenError : JsError := ⟨"Unexpected token"⟩

/-- Model of `SyntaxError: Unexpected end of JSON input`. -/
def unexpectedEndError : JsError := ⟨"Unexpected end of JSON input"⟩

/-- Body of a JSON string after the opening quote: the decoded code units
and the rest of the input after the closing quote.  Escape sequences are
outside the exercised grammar and are rejected. -/
def parseStringBody : List Nat → Except JsError (List Nat × List Nat)
  | [] => .error unexpectedEndError
  | c :: rest =>
      if c = 34 then .ok ([], rest)
      else if c = 92 then .error unexpectedTokenError
      else (parseStringBody rest).map fun (s, r) => (c :: s, r)

/-- Maximal run of decimal digits, accumulated into a number. -/
def parseNatAcc : List Nat → Nat → Nat × List Nat
  | c :: rest, acc =>
      if 48 ≤ c ∧ c ≤ 57 then parseNatAcc rest (acc * 10 + (c - 48)) else (acc, c :: rest)
  | [], acc => (acc, [])

mutual

/-- One JSON value at the head of the input; returns it and the rest. -/
def jsonParseValue : Nat → List Nat → Except JsError (Json × List Nat)
  | 0, _ => .error unexpectedTokenError
  | _ + 1, [] => .error unexpectedEndError
  | fuel + 1, c :: rest =>
      if c = 123 then
        match rest with
        | 125 :: r => .ok (.obj [], r)
        | _ => (jsonParseMembers fuel rest).map fun (fs, r) => (.obj fs, r)
      else if c = 91 then
        match rest with
        | 93 :: r => .ok (.arr [], r)
        | _ => (jsonParseElems fuel rest).map fun (es, r) => (.arr es, r)
      else if c = 34 then (parseStringBody rest).map fun (s, r) => (.str s, r)
      else if 48 ≤ c ∧ c ≤ 57 then
        let (n, r) := parseNatAcc rest (c - 48)
        .ok (.num (Int.ofNat n), r)
      else if c = 45 then
        match rest with
        | d :: r2 =>
            if 48 ≤ d ∧ d ≤ 57 then
              let (n, r) := parseNatAcc r2 (d - 48)
              .ok (.num (-(Int.ofNat n)), r)
            else .error unexpectedTokenError
        | [] => .error unexpectedTokenError
      else if listStartsWith (codes "true") (c :: rest) then .ok (.bool true, rest.drop 3)
      else if listStartsWith (codes "false") (c :: rest) then .ok (.bool false, rest.drop 4)
      else if listStartsWith (codes "null") (c :: rest) then .ok (.null, rest.drop 3)
      else .error unexpectedTokenError

/-- Object members from the first key onward, consuming the closing brace. -/
def jsonParseMembers : Nat → List Nat → Except JsError (List (String × Json) × List Nat)
  | 0, _ => .error unexpectedTokenError
  | _ + 1, [] => .error unexpectedEndError
  | fuel + 1, c :: rest =>
      if c = 34 then
        match parseStringBody rest with
        | .error e => .error e
        | .ok (key, r1) =>
            match r1 with
            | 58 :: r2 =>
                match jsonParseValue fuel r2 with
                | .error e => .error e
                | .ok (v, r3) =>
                    match r3 with
                    | 44 :: r4 =>
                        (jsonParseMembers fuel r4).map fun (fs, r) => ((strOfCodes key, v) :: fs, r)
                    | 125 :: r4 => .ok ([(strOfCodes key, v)], r4)
                    | _ => .error unexpectedTokenError
            | _ => .error unexpectedTokenError
      else .error unexpectedTokenError

/-- Array elements from the first element onward, consuming the closing bracket. -/
def jsonParseElems : Nat → List Nat → Except JsError (List Json × List Nat)
  | 0, _ => .error unexpectedTokenError
  | fuel + 1, input =>
      match jsonParseValue fuel input with
      | .error e => .error e
      | .ok (v, r1) =>
          match r1 with
          | 44 :: r2 => (jsonParseElems fuel r2).map fun (es, r) => (v :: es, r)
          | 93 :: r2 => .ok ([v], r2)
          | _ => .error unexpectedTokenError

end

/-- Model of `JSON.parse`: one value spanning the whole input. -/
def jsonParse (s : List Nat) : Except JsError Json :=
  match jsonParseValue (s.length + 1) s with
  | .error e => .error e
  | .ok (v, []) => .ok v
  | .ok (_, _ :: _) => .error unexpectedTokenError

/-! ## The Sealing Engine (`createSealData` / `createUnsealData`) -/

/-- The four components of a seal, each a base64url string
(`PQSealResult` in the source). -/
structure PQSealResult where
  ciphertext : List Nat
  publicKey : List Nat
  signature : List Nat
  signPublicKey : List Nat
deriving Repr, DecidableEq

/-- The JSON object literal `sealData` assembles (insertion order
`ciphertext, publicKey, signature, signPublicKey`). -/
def sealObjJson (r : PQSealResult) : Json :=
  .obj [("ciphertext", .str r.ciphertext), ("publicKey", .str r.publicKey),
        ("signature", .str r.signature), ("signPublicKey", .str r.signPublicKey)]

/-- Model of `data`: either a structured value (serialized with `JSON.stringify` and
`TextEncoder`, the identity on the ASCII output) or a raw `Uint8Array`. -/
inductive SealInput where
  | json (j : Json)
  | bytes (bs : List Nat)

/-- The serialized bytes of the data to encrypt (`dataBytes` in the source;
`TextEncoder.encode` on the ASCII output of `JSON.stringify` is the
identity on code units). -/
def SealInput.toBytes : SealInput → List Nat
  | .json j => j.stringify
  | .bytes bs => bs

/-- A password map entry list (`PasswordsMap`) or a bare string. -/
inductive Password where
  | str (s : String)
  | map (m : List (String × String))
deriving Repr, DecidableEq

/-- Model of `normalizeStringPasswordToMap`: a bare string becomes the map `1 ↦ s`. -/
def normalizeStringPasswordToMap : Password → List (String × String)
  | .str s => [("1", s)]
  | .map m => m

/-- The `_options` argument of `sealData` / `unsealData`. -/
structure SealOptions where
  password : Password
  ttl : Nat
deriving Repr, DecidableEq

/-- The random values drawn during one `sealData` call:
`randomBytes(64)` for the KEM seed, the randomness inside
`ml_kem1024.encapsulate`, `randomBytes(12)` for the AES-GCM IV and
`randomBytes(64)` for the ML-DSA seed. -/
structure SealSeeds where
  kemSeed : List Nat
  encapRandomness : List Nat
  iv : List Nat
  dsaSeed : List Nat

def timestampSkewSec : Nat := 60
def fourteenDaysInSeconds : Nat := 14 * 24 * 3600
def currentMajorVersion : Nat := 2

/-- The version delimiter `~` (code 126). -/
def versionDelimiter : Nat := 126

/-- The component assembly inside `sealData` (lines 219-262 of `core.ts`):
ephemeral KEM key pair, encapsulated shared secret (the KEM ciphertext is
discarded), AES-GCM encryption under a fresh IV (the IV is not stored),
fresh ML-DSA key pair, signature over the encrypted data. -/
def sealComponents (data : SealInput) (seeds : SealSeeds) : PQSealResult :=
  let publicKey := (mlKemKeygen seeds.kemSeed).1
  let sharedSecret := (mlKemEncapsulate publicKey seeds.encapRandomness).2
  let encryptedData := aesGcmEncrypt sharedSecret seeds.iv data.toBytes
  let signKeys := mlDsaKeygen seeds.dsaSeed
  { ciphertext := base64urlStringify encryptedData
    publicKey := base64urlStringify publicKey
    signature := base64urlStringify (mlDsaSign encryptedData signKeys.2)
    signPublicKey := base64urlStringify (mlDsaKeygen seeds.dsaSeed).1 }

/-- Model of `sealData(data, _options)` with the randomness explicit: the base64url
encoding of the JSON seal object, then `~` and the major version.  The
`_options` argument (password and ttl) is accepted and never read, exactly
as in the source. -/
def sealData (data : SealInput) (_options : SealOptions) (seeds : SealSeeds) : List Nat :=
  base64urlStringify (sealObjJson (sealComponents data seeds)).stringify
    ++ (versionDelimiter :: natCodes currentMajorVersion)

/-- Model of `String.prototype.split` on a single-character separator. -/
def splitOn (sep : Nat) : List Nat → List (List Nat)
  | [] => [[]]
  | c :: rest =>
      let r := splitOn sep rest
      if c = sep then [] :: r
      else
        match r with
        | s :: ss => (c :: s) :: ss
        | [] => [[c]]

/-- Model of `Number.parseInt(s, 10)` on the inputs the program can produce: leading
decimal digits; `none` models `NaN`. -/
def jsParseInt (s : List Nat) : Option Int :=
  match s with
  | c :: _ => if 48 ≤ c ∧ c ≤ 57 then some (Int.ofNat (parseNatAcc s 0).1) else none
  | [] => none

/-- Result of `parseSeal`: the payload before the first `~`, and the parsed
version suffix (`none` models both `null` and `NaN`; the value is never
read again by `unsealData`). -/
structure ParsedSeal where
  sealWithoutVersion : List Nat
  tokenVersion : Option Int
deriving Repr, DecidableEq

/-- Model of `parseSeal(seal)`: split on `~`; the error branch guards the impossible
case of `split` returning no first element (in JavaScript `split` always
returns at least one element, making the branch dead, but it is modelled
as thrown — note it is raised outside the `try` of `unsealData`). -/
def parseSeal (tok : List Nat) : Except JsError ParsedSeal :=
  match splitOn versionDelimiter tok with
  | [] => .error ⟨"Invalid seal format: missing seal data"⟩
  | s :: rest =>
      .ok ⟨s, match rest with
              | [] => none
              | v :: _ => jsParseInt v⟩

/-- Model of `TypeError` raised when a missing seal component (`undefined`, or a
non-string) reaches `base64url.parse`. -/
def cannotReadUndefinedError : JsError := ⟨"Cannot read properties of undefined"⟩

/-- Reading a component field off the parsed payload (`sealData.ciphertext`
etc.): the string value of the last member with that key (JSON.parse keeps
the last duplicate), or the `TypeError` its absence causes downstream. -/
def jsGetStringField (j : Json) (key : String) : Except JsError (List Nat) :=
  match j with
  | .obj fs =>
      match fs.reverse.find? (fun kv => kv.1 == key) with
      | some (_, .str s) => .ok s
      | _ => .error cannotReadUndefinedError
  | _ => .error cannotReadUndefinedError

/-- The value `unsealData` returns: a structured value if the decrypted
plaintext parses as JSON, otherwise the raw bytes. -/
inductive UnsealOut where
  | json (j : Json)
  | bytes (bs : List Nat)
deriving Repr

/-- The prefixes of the "expected seal problem" classes recognized by the
recovery test in `unsealData`
(`/^(Invalid signature|Invalid seal format|Bad hmac value|Cannot find password|Incorrect number of sealed components)/`). -/
def sealErrorRecoveryKinds : List String :=
  ["Invalid signature", "Invalid seal format", "Bad hmac value",
   "Cannot find password", "Incorrect number of sealed components"]

/-- The anchored regular-expression test on an error message. -/
def isSealError (e : JsError) : Bool :=
  sealErrorRecoveryKinds.any fun p => listStartsWith (codes p) (codes e.message)

/-- The body of the `try` block in `unsealData` (lines 276-318 of
`core.ts`): decode the payload (loose base64url, then `JSON.parse`), decode
the four components (strict base64url), verify the signature over the
ciphertext, decapsulate with the AES ciphertext and the KEM *public* key
(as the source does), decrypt with an all-zero IV, then `JSON.parse` the
plaintext, falling back to raw bytes. -/
def unsealBody (sealWithoutVersion : List Nat) : Except JsError UnsealOut := do
  let payloadBytes ← base64urlParseLoose sealWithoutVersion
  let sealJson ← jsonParse payloadBytes
  let ciphertextStr ← jsGetStringField sealJson "ciphertext"
  let publicKeyStr ← jsGetStringField sealJson "publicKey"
  let signatureStr ← jsGetStringField sealJson "signature"
  let signPublicKeyStr ← jsGetStringField sealJson "signPublicKey"
  let ciphertext ← base64urlParse ciphertextStr
  let kemPublicKey ← base64urlParse publicKeyStr
  let signature ← base64urlParse signatureStr
  let signPublicKey ← base64urlParse signPublicKeyStr
  if mlDsaVerify ciphertext signature signPublicKey = false then
    .error ⟨"Invalid signature"⟩
  else
    let sharedSecret := mlKemDecapsulate ciphertext kemPublicKey
    let decryptedData ← aesGcmDecrypt sharedSecret (List.replicate 12 0) ciphertext
    match jsonParse decryptedData with
    | .ok v => .ok (.json v)
    | .error _ => .ok (.bytes decryptedData)

/-- Model of `unsealData(seal, _options)`: `parseSeal` runs outside the `try` block;
inside it, an exception whose message matches the recovery pattern yields
the empty object, any other exception propagates.  The parsed
`tokenVersion` is never consulted, and `_options` (password, ttl) is
accepted and never read, exactly as in the source. -/
def unsealData (tok : List Nat) (_options : SealOptions) : Except JsError UnsealOut := do
  let parsed ← parseSeal tok
  match unsealBody parsed.sealWithoutVersion with
  | .ok v => .ok v
  | .error e => if isSealError e then .ok (.json (Json.obj [])) else .error e

/-! ## Session configuration (`getSessionConfig`, `computeCookieMaxAge`) -/

/-- Model of `computeCookieMaxAge(ttl)`: ttl 0 maps to the maximum legal cookie
max-age, otherwise ttl minus the 60-second clock-skew allowance
(a JavaScript subtraction, so the result may be negative). -/
def computeCookieMaxAge (ttl : Nat) : Int :=
  if ttl = 0 then 2147483647 else (ttl : Int) - timestampSkewSec

/-- Caller-supplied `cookieOptions`.  `maxAge` distinguishes a missing key
(`none`), a key present with value `undefined` (`some none`) and a number
(`some (some n)`), because `getSessionConfig` tests `"maxAge" in
cookieOptions`.  For the other keys only presence with a value matters to
the program. -/
structure CookieOptionsInput where
  httpOnly : Option Bool := none
  secure : Option Bool := none
  sameSite : Option String := none
  path : Option String := none
  domain : Option String := none
  maxAge : Option (Option Int) := none
deriving Repr, DecidableEq

/-- The resolved cookie attribute record after the merge in
`getSessionConfig` (`maxAge = some none` is a key present with value
`undefined`, which the cookie serializer and `JSON.stringify` skip). -/
structure ResolvedCookieOptions where
  httpOnly : Option Bool
  secure : Option Bool
  sameSite : Option String
  path : Option String
  domain : Option String
  maxAge : Option (Option Int)
deriving Repr, DecidableEq

/-- Caller-supplied `SessionOptions`. -/
structure SessionOptionsInput where
  cookieName : String
  password : Password
  ttl : Option Nat := none
  cookieOptions : Option CookieOptionsInput := none
deriving Repr, DecidableEq

/-- The resolved session configuration (`Required<SessionOptions>` minus the
password, which the callers keep separately as `passwordsMap`). -/
structure SessionConfig where
  cookieName : String
  ttl : Nat
  cookieOptions : ResolvedCookieOptions
deriving Repr, DecidableEq

/-- The spread `{...defaultOptions.cookieOptions, ...(sessionOptions.cookieOptions || {})}`:
defaults `httpOnly: true, secure: true, sameSite: "lax", path: "/"`,
caller values override. -/
def mergeCookieOptions (caller : CookieOptionsInput) : ResolvedCookieOptions :=
  ⟨some (caller.httpOnly.getD true), some (caller.secure.getD true),
   some (caller.sameSite.getD "lax"), some (caller.path.getD "/"),
   caller.domain, caller.maxAge⟩

def emptyCookieOptionsInput : CookieOptionsInput := ⟨none, none, none, none, none, none⟩

/-- Model of `getSessionConfig(sessionOptions)` (lines 333-358 of `core.ts`): merge
with defaults; if the caller passed a `maxAge` key with value `undefined`,
treat the token as infinite (`ttl = 0`) and emit no max-age; if the caller
passed no `maxAge` key at all, derive it from the ttl. -/
def getSessionConfig (o : SessionOptionsInput) : SessionConfig :=
  let ttl0 := o.ttl.getD fourteenDaysInSeconds
  let co := mergeCookieOptions (o.cookieOptions.getD emptyCookieOptionsInput)
  match o.cookieOptions with
  | some ci =>
      match ci.maxAge with
      | some none => ⟨o.cookieName, 0, co⟩
      | some (some _) => ⟨o.cookieName, ttl0, co⟩
      | none => ⟨o.cookieName, ttl0, { co with maxAge := some (some (computeCookieMaxAge ttl0)) }⟩
  | none => ⟨o.cookieName, ttl0, { co with maxAge := some (some (computeCookieMaxAge ttl0)) }⟩

/-! ## Cookie serialization (the `cookie` package `serialize`) -/

/-- The characters `encodeURIComponent` leaves unescaped
(letters, digits, `- _ . ! ~ * ' ( )`). -/
def uriUnescaped (c : Nat) : Bool :=
  (65 ≤ c && c ≤ 90) || (97 ≤ c && c ≤ 122) || (48 ≤ c && c ≤ 57) ||
  c == 45 || c == 95 || c == 46 || c == 33 || c == 126 || c == 42 ||
  c == 39 || c == 40 || c == 41

/-- Uppercase hexadecimal digit code of a value below 16. -/
def hexDigit (n : Nat) : Nat := if n < 10 then 48 + n else 55 + n

/-- Model of `encodeURIComponent` on the single-byte characters the program emits. -/
def encodeURIComponent : List Nat → List Nat
  | [] => []
  | c :: rest =>
      if uriUnescaped c then c :: encodeURIComponent rest
      else 37 :: hexDigit (c / 16) :: hexDigit (c % 16) :: encodeURIComponent rest

/-- The `SameSite` attribute for the values the package accepts
(anything else would be rejected by the package and is not exercised). -/
def sameSiteAttr (s : String) : List Nat :=
  if s = "lax" then codes "; SameSite=Lax"
  else if s = "strict" then codes "; SameSite=Strict"
  else if s = "none" then codes "; SameSite=None"
  else []

/-- Model of `serialize(name, value, options)` of the `cookie` package for the
attribute surface the program configures, in the package's attribute order
(Max-Age, Domain, Path, HttpOnly, Secure, SameSite); an absent or
`undefined` option emits no attribute. -/
def serializeCookie (name value : List Nat) (o : ResolvedCookieOptions) : List Nat :=
  name ++ (61 :: encodeURIComponent value)
    ++ (match o.maxAge with
        | some (some n) => codes "; Max-Age=" ++ intCodes n
        | _ => [])
    ++ (match o.domain with
        | some d => codes "; Domain=" ++ codes d
        | none => [])
    ++ (match o.path with
        | some p => codes "; Path=" ++ codes p
        | none => [])
    ++ (if o.httpOnly.getD false then codes "; HttpOnly" else [])
    ++ (if o.secure.getD false then codes "; Secure" else [])
    ++ (match o.sameSite with
        | some s => sameSiteAttr s
        | none => [])

/-- The resolved cookie options as the JSON object `JSON.stringify` sees
(insertion order of `getSessionConfig`: the four defaulted attributes, a
caller domain, then the derived `maxAge` assigned last; `undefined`-valued
keys are skipped, as `JSON.stringify` does). -/
def cookieOptionsJson (o : ResolvedCookieOptions) : Json :=
  .obj ((match o.httpOnly with | some b => [("httpOnly", Json.bool b)] | none => [])
    ++ (match o.secure with | some b => [("secure", Json.bool b)] | none => [])
    ++ (match o.sameSite with | some s => [("sameSite", Json.str (codes s))] | none => [])
    ++ (match o.path with | some p => [("path", Json.str (codes p))] | none => [])
    ++ (match o.domain with | some d => [("domain", Json.str (codes d))] | none => [])
    ++ (match o.maxAge with | some (some n) => [("maxAge", Json.num n)] | _ => []))

/-! ## The session object

A JavaScript object as the lifecycle controller manipulates it: an ordered
list of own properties, each with a value (structured data or a bound
function) and its `enumerable` flag. -/

/-- An own property value: structured data, or one of the three installed
bound functions (identified by name — the closure itself lives outside the
object). -/
inductive PropValue where
  | data (j : Json)
  | fn (tag : String)
deriving Repr

/-- One own property with its `enumerable` descriptor flag. -/
structure JsProp where
  name : String
  value : PropValue
  enumerable : Bool
deriving Repr

/-- A JavaScript object: own properties in insertion order. -/
abbrev JsObject := List JsProp

/-- Model of `Object.keys`: names of the own enumerable properties. -/
def objectKeys (s : JsObject) : List String := (s.filter (·.enumerable)).map (·.name)

/-- Model of `delete session[key]` for every key in `ks`. -/
def deleteKeys (s : JsObject) (ks : List String) : JsObject :=
  s.filter (fun p => !(ks.contains p.name))

/-- The loop in `destroy()`: delete every own enumerable property. -/
def destroyFields (s : JsObject) : JsObject := deleteKeys s (objectKeys s)

/-- The first own property of that name, if any. -/
def ownProp? (s : JsObject) (n : String) : Option JsProp := s.find? (·.name == n)

/-- Model of `Object.defineProperty(s, n, { value })`: an existing property keeps its
other descriptor attributes; a fresh property gets the descriptor defaults,
in particular `enumerable: false`. -/
def definePropValue (s : JsObject) (n : String) (v : PropValue) : JsObject :=
  if s.any (fun p => p.name == n) then
    s.map (fun p => if p.name == n then ⟨p.name, v, p.enumerable⟩ else p)
  else s ++ [⟨n, v, false⟩]

/-- The `Object.defineProperties` call of `getIronSession` /
`getIronSessionFromCookieStore`: install `updateConfig`, `save` and
`destroy` (in source order) with plain `value` descriptors. -/
def installSessionMethods (s : JsObject) : JsObject :=
  definePropValue
    (definePropValue
      (definePropValue s "updateConfig" (.fn "updateConfig"))
      "save" (.fn "save"))
    "destroy" (.fn "destroy")

/-- The value `JSON.stringify` (inside `sealData`) reads off the session
object: its own enumerable, non-function properties, in order. -/
def sessionToJson (s : JsObject) : Json :=
  .obj (s.filterMap fun p =>
    if p.enumerable then
      match p.value with
      | .data j => some (p.name, j)
      | .fn _ => none
    else none)

/-! ## The lifecycle operations of the two transports -/

/-- The `save()` size-guard / `headersSent` usage errors (the source
message interpolates the measured length; the model keeps the fixed text). -/
def cookieTooBigError : JsError :=
  ⟨"iron-session: Cookie length is too big, browsers will refuse it. Try to remove some data."⟩

def headersSentError : JsError :=
  ⟨"iron-session: Cannot set session cookie: session.save() was called after headers were sent. Make sure to call it before any res.send() or res.end()"⟩

/-- Model of `setCookie(res, value)`: append one `set-cookie` header to the
response (modelled as the list of emitted cookie strings). -/
def setCookie (res : List (List Nat)) (v : List Nat) : List (List Nat) := res ++ [v]

/-- The seal a `save()` call computes: `sealData(session, { password, ttl })`
— the first statement of both transports' `save` bodies. -/
def sessionSeal (session : JsObject) (passwordsMap : List (String × String))
    (cfg : SessionConfig) (seeds : SealSeeds) : List Nat :=
  sealData (.json (sessionToJson session)) ⟨.map passwordsMap, cfg.ttl⟩ seeds

/-- Model of `save()` of the request/response transport (lines 439-465 of `core.ts`):
refuse after headers were sent; seal; serialize; hard error above 4096
characters; otherwise emit exactly one `set-cookie` header. -/
def saveHeader (session : JsObject) (passwordsMap : List (String × String))
    (cfg : SessionConfig) (seeds : SealSeeds) (headersSent : Bool)
    (res : List (List Nat)) : Except JsError (List (List Nat)) :=
  if headersSent then .error headersSentError
  else
    let cookieValue := serializeCookie (codes cfg.cookieName)
      (sessionSeal session passwordsMap cfg seeds) cfg.cookieOptions
    if 4096 < cookieValue.length then .error cookieTooBigError
    else .ok (setCookie res cookieValue)

/-- One `cookieStore.set(name, value, options)` call. -/
structure CookieSetCall where
  name : String
  value : List Nat
  options : ResolvedCookieOptions
deriving Repr

/-- Model of `save()` of the cookie-store transport (lines 526-550 of `core.ts`):
seal; estimate the length as name length + seal length + length of
`JSON.stringify(cookieOptions)`; hard error above 4096; otherwise one
`cookieStore.set` call. -/
def saveStore (session : JsObject) (passwordsMap : List (String × String))
    (cfg : SessionConfig) (seeds : SealSeeds) : Except JsError CookieSetCall :=
  let seal0 := sessionSeal session passwordsMap cfg seeds
  let cookieLength := (codes cfg.cookieName).length + seal0.length
    + (cookieOptionsJson cfg.cookieOptions).stringify.length
  if 4096 < cookieLength then .error cookieTooBigError
  else .ok ⟨cfg.cookieName, seal0, cfg.cookieOptions⟩

/-- The spread `{...sessionConfig.cookieOptions, maxAge: 0}` used by both
`destroy` implementations. -/
def setMaxAgeZero (o : ResolvedCookieOptions) : ResolvedCookieOptions :=
  ⟨o.httpOnly, o.secure, o.sameSite, o.path, o.domain, some (some 0)⟩

/-- Model of `destroy()` of the request/response transport (lines 467-479): delete
every own enumerable property, then emit a cookie with the same name and
attributes, an empty value and `maxAge: 0`. -/
def destroyHeader (session : JsObject) (cfg : SessionConfig)
    (res : List (List Nat)) : JsObject × List (List Nat) :=
  (destroyFields session,
   setCookie res (serializeCookie (codes cfg.cookieName) [] (setMaxAgeZero cfg.cookieOptions)))

/-- Model of `destroy()` of the cookie-store transport (lines 552-561). -/
def destroyStore (session : JsObject) (cfg : SessionConfig) : JsObject × CookieSetCall :=
  (destroyFields session, ⟨cfg.cookieName, [], setMaxAgeZero cfg.cookieOptions⟩)

/-! ## Basic lemmas about the idealized primitives -/

theorem expandBytes_length (x n : Nat) : (expandBytes x n).length = n := by
  simp [expandBytes]

theorem expandBytes_lt (x n : Nat) : ∀ b ∈ expandBytes x n, b < 256 := by
  intro b hb
  simp only [expandBytes, List.mem_map] at hb
  obtain ⟨i, _, rfl⟩ := hb
  exact Nat.mod_lt _ (by omega)

theorem expandBytes_head (x n : Nat) (h : 0 < n) : (expandBytes x n).headD 0 = x % 256 := by
  cases n with
  | zero => omega
  | succ m =>
      simp [expandBytes, List.range_succ_eq_map]

/-! ## Lemmas about the base64url codec -/

theorem b64Char_cases (n : Nat) :
    b64Char n = 45 ∨ b64Char n = 95 ∨ (48 ≤ b64Char n ∧ b64Char n ≤ 57) ∨
    (65 ≤ b64Char n ∧ b64Char n ≤ 90) ∨ (97 ≤ b64Char n ∧ b64Char n ≤ 122) := by
  unfold b64Char
  split_ifs <;> omega

theorem b64Char_ne_61 (n : Nat) : b64Char n ≠ 61 := by
  rcases b64Char_cases n with h | h | h | h | h <;> omega

theorem b64Char_lt_256 (n : Nat) : b64Char n < 256 := by
  rcases b64Char_cases n with h | h | h | h | h <;> omega

theorem b64Val_b64Char (n : Nat) (h : n < 64) : b64Val (b64Char n) = some n := by
  unfold b64Char b64Val
  split_ifs <;> simp_all <;> omega

/-- Every character of a base64url encoding is padding or an alphabet character. -/
theorem mem_base64urlStringify (bs : List Nat) :
    ∀ c ∈ base64urlStringify bs, c = 61 ∨ ∃ n, c = b64Char n := by
  induction bs using base64urlStringify.induct with
  | case1 => intro c hc; simp [base64urlStringify] at hc
  | case2 b0 =>
      intro c hc
      simp only [base64urlStringify, List.mem_cons, List.mem_singleton] at hc
      rcases hc with rfl | rfl | rfl | rfl | h
      · exact Or.inr ⟨_, rfl⟩
      · exact Or.inr ⟨_, rfl⟩
      · exact Or.inl rfl
      · exact Or.inl rfl
      · simp at h
  | case3 b0 b1 =>
      intro c hc
      simp only [base64urlStringify, List.mem_cons, List.mem_singleton] at hc
      rcases hc with rfl | rfl | rfl | rfl | h
      · exact Or.inr ⟨_, rfl⟩
      · exact Or.inr ⟨_, rfl⟩
      · exact Or.inr ⟨_, rfl⟩
      · exact Or.inl rfl
      · simp at h
  | case4 b0 b1 b2 rest ih =>
      intro c hc
      simp only [base64urlStringify, List.mem_cons] at hc
      rcases hc with rfl | rfl | rfl | rfl | h
      · exact Or.inr ⟨_, rfl⟩
      · exact Or.inr ⟨_, rfl⟩
      · exact Or.inr ⟨_, rfl⟩
      · exact Or.inr ⟨_, rfl⟩
      · exact ih c h

theorem mem_base64urlStringify_ne (bs : List Nat) :
    ∀ c ∈ base64urlStringify bs, c ≠ 126 ∧ c ≠ 34 ∧ c ≠ 92 ∧ c < 256 := by
  intro c hc
  rcases mem_base64urlStringify bs c hc with rfl | ⟨n, rfl⟩
  · omega
  · have h1 := b64Char_cases n
    have h2 := b64Char_lt_256 n
    rcases h1 with h | h | h | h | h <;> omega

theorem stripTrailingEq_cons_ne (x : Nat) (xs : List Nat) (h : x ≠ 61) :
    stripTrailingEq (x :: xs) = x :: stripTrailingEq xs := by
  simp only [stripTrailingEq, List.reverse_cons, List.dropWhile_append]
  split
  · next hemp =>
      simp only [List.dropWhile_cons, List.dropWhile_nil]
      rw [List.isEmpty_iff] at hemp
      simp only [hemp, List.reverse_nil]
      have : (x == 61) = false := by simpa using h
      simp [this]
  · next hemp => simp

theorem base64urlStringify_length (bs : List Nat) :
    (base64urlStringify bs).length = 4 * ((bs.length + 2) / 3) := by
  induction bs using base64urlStringify.induct with
  | case1 => simp [base64urlStringify]
  | case2 b0 => simp [base64urlStringify]
  | case3 b0 b1 => simp [base64urlStringify]
  | case4 b0 b1 b2 rest ih =>
      simp only [base64urlStringify, List.length_cons, ih]
      omega

/-- Core roundtrip: decoding the (padding-stripped) encoding restores the bytes. -/
theorem b64ParseGroups_stringify (bs : List Nat) (h : ∀ b ∈ bs, b < 256) :
    b64ParseGroups (stripTrailingEq (base64urlStringify bs)) = .ok bs := by
  induction bs using base64urlStringify.induct with
  | case1 => simp [base64urlStringify, stripTrailingEq, b64ParseGroups]
  | case2 b0 =>
      have hb0 : b0 < 256 := h b0 (by simp)
      rw [base64urlStringify, stripTrailingEq_cons_ne _ _ (b64Char_ne_61 _),
        stripTrailingEq_cons_ne _ _ (b64Char_ne_61 _)]
      simp only [stripTrailingEq, List.reverse_cons, List.reverse_nil, List.nil_append,
        List.dropWhile, List.cons_append]
      norm_num [b64ParseGroups, b64Val_b64Char _ (by omega : b0 / 4 < 64),
        b64Val_b64Char _ (by omega : b0 % 4 * 16 < 64)]
      omega
  | case3 b0 b1 =>
      have hb0 : b0 < 256 := h b0 (by simp)
      have hb1 : b1 < 256 := h b1 (by simp)
      rw [base64urlStringify, stripTrailingEq_cons_ne _ _ (b64Char_ne_61 _),
        stripTrailingEq_cons_ne _ _ (b64Char_ne_61 _),
        stripTrailingEq_cons_ne _ _ (b64Char_ne_61 _)]
      simp only [stripTrailingEq, List.reverse_cons, List.reverse_nil, List.nil_append,
        List.dropWhile, List.cons_append]
      norm_num [b64ParseGroups, b64Val_b64Char _ (by omega : b0 / 4 < 64),
        b64Val_b64Char _ (by omega : b0 % 4 * 16 + b1 / 16 < 64),
        b64Val_b64Char _ (by omega : b1 % 16 * 4 < 64)]
      constructor <;> omega
  | case4 b0 b1 b2 rest ih =>
      have hb0 : b0 < 256 := h b0 (by simp)
      have hb1 : b1 < 256 := h b1 (by simp)
      have hb2 : b2 < 256 := h b2 (by simp)
      have hrest : ∀ b ∈ rest, b < 256 := fun b hb => h b (by simp [hb])
      rw [base64urlStringify, stripTrailingEq_cons_ne _ _ (b64Char_ne_61 _),
        stripTrailingEq_cons_ne _ _ (b64Char_ne_61 _),
        stripTrailingEq_cons_ne _ _ (b64Char_ne_61 _),
        stripTrailingEq_cons_ne _ _ (b64Char_ne_61 _)]
      rw [b64ParseGroups, b64Val_b64Char _ (by omega : b0 / 4 < 64),
        b64Val_b64Char _ (by omega : b0 % 4 * 16 + b1 / 16 < 64),
        b64Val_b64Char _ (by omega : b1 % 16 * 4 + b2 / 64 < 64),
        b64Val_b64Char _ (by omega : b2 % 64 < 64), ih hrest]
      norm_num
      refine ⟨by omega, by omega, by omega⟩

theorem base64urlParse_stringify (bs : List Nat) (h : ∀ b ∈ bs, b < 256) :
    base64urlParse (base64urlStringify bs) = .ok bs := by
  rw [base64urlParse, base64urlStringify_length]
  simp only [Nat.mul_mod_right]
  rw [if_neg (by omega)]
  exact b64ParseGroups_stringify bs h

theorem base64urlParseLoose_stringify (bs : List Nat) (h : ∀ b ∈ bs, b < 256) :
    base64urlParseLoose (base64urlStringify bs) = .ok bs :=
  b64ParseGroups_stringify bs h

/-! ## Lemmas about the JSON codec on the seal payload shape -/

/-- Code units that need no JSON string escaping (no quote, no backslash). -/
def plainCodes (s : List Nat) : Prop := ∀ c ∈ s, c ≠ 34 ∧ c ≠ 92

theorem plainCodes_b64 (bs : List Nat) : plainCodes (base64urlStringify bs) := fun c hc =>
  ⟨(mem_base64urlStringify_ne bs c hc).2.1, (mem_base64urlStringify_ne bs c hc).2.2.1⟩

theorem jsonEscape_plain (s : List Nat) (h : plainCodes s) : jsonEscape s = s := by
  induction s with
  | nil => rfl
  | cons c cs ih =>
      have hc := h c (by simp)
      rw [jsonEscape, if_neg (by omega)]
      rw [ih (fun d hd => h d (by simp [hd]))]

theorem parseStringBody_append (s rest : List Nat) (h : plainCodes s) :
    parseStringBody (s ++ (34 :: rest)) = .ok (s, rest) := by
  induction s with
  | nil => rfl
  | cons c cs ih =>
      have hc := h c (by simp)
      rw [List.cons_append, parseStringBody, if_neg (by omega), if_neg (by omega),
        ih (fun d hd => h d (by simp [hd]))]
      rfl

theorem strOfCodes_codes (s : String) : strOfCodes (codes s) = s := by
  simp [strOfCodes, codes, List.map_map, Function.comp_def, Char.ofNat_toNat]

/-- Object fields whose values are all strings. -/
def strFields (fs : List (String × List Nat)) : List (String × Json) :=
  fs.map (fun kv => (kv.1, Json.str kv.2))

theorem jsonParseMembers_strFields :
    ∀ (fs : List (String × List Nat)) (fuel : Nat) (rest : List Nat),
      fs ≠ [] →
      (∀ kv ∈ fs, plainCodes (codes kv.1) ∧ plainCodes kv.2) →
      fs.length + 1 ≤ fuel →
      jsonParseMembers fuel (Json.stringifyFields (strFields fs) ++ (125 :: rest))
        = .ok (strFields fs, rest) := by
  intro fs
  induction fs with
  | nil => intro fuel rest hne _ _; exact absurd rfl hne
  | cons kv fs' ih =>
      intro fuel rest _ hplain hfuel
      obtain ⟨k, v⟩ := kv
      have hk : plainCodes (codes k) := (hplain (k, v) (by simp)).1
      have hv : plainCodes v := (hplain (k, v) (by simp)).2
      obtain ⟨f, rfl⟩ : ∃ f, fuel = f + 2 := ⟨fuel - 2, by simp at hfuel; omega⟩
      cases fs' with
      | nil =>
          simp only [strFields, List.map_singleton, Json.stringifyFields, Json.stringify,
            jsonEscape_plain _ hk, jsonEscape_plain _ hv, List.cons_append,
            List.append_assoc, List.singleton_append]
          rw [show f + 2 = (f + 1) + 1 from rfl, jsonParseMembers]
          rw [if_pos rfl, parseStringBody_append _ _ hk]
          simp only [jsonParseValue]
          norm_num
          rw [parseStringBody_append _ _ hv, strOfCodes_codes]
          rfl
      | cons kv2 fs'' =>
          simp only [strFields, List.map_cons, Json.stringifyFields, Json.stringify,
            jsonEscape_plain _ hk, jsonEscape_plain _ hv, List.cons_append,
            List.append_assoc, List.singleton_append]
          rw [show f + 2 = (f + 1) + 1 from rfl, jsonParseMembers]
          rw [if_pos rfl, parseStringBody_append _ _ hk]
          simp only [jsonParseValue]
          norm_num
          rw [parseStringBody_append _ _ hv, strOfCodes_codes]
          have hres := ih (f + 1) rest (by simp)
            (fun kv hkv => hplain kv (by simp [hkv])) (by simp at hfuel ⊢; omega)
          simp only [strFields, List.map_cons, Json.stringifyFields, Json.stringify,
            List.cons_append, List.append_assoc, List.singleton_append] at hres
          simp only [Except.map]
          rw [hres]

theorem length_stringifyFields_strFields (fs : List (String × List Nat)) :
    fs.length ≤ (Json.stringifyFields (strFields fs)).length := by
  induction fs with
  | nil => simp
  | cons kv fs' ih =>
      cases fs' with
      | nil => simp [strFields, Json.stringifyFields]
      | cons kv2 fs'' =>
          simp only [strFields, List.map_cons, Json.stringifyFields] at ih ⊢
          simp only [List.length_cons, List.length_append] at ih ⊢
          omega

/-- Inversion: `JSON.parse` undoes `JSON.stringify` on a nonempty object all of whose
member values are escape-free strings — the shape of the seal payload. -/
theorem jsonParse_strObj (fs : List (String × List Nat)) (hne : fs ≠ [])
    (hplain : ∀ kv ∈ fs, plainCodes (codes kv.1) ∧ plainCodes kv.2) :
    jsonParse (Json.obj (strFields fs)).stringify = .ok (.obj (strFields fs)) := by
  have hlen := length_stringifyFields_strFields fs
  have hmem := jsonParseMembers_strFields fs
    ((Json.stringifyFields (strFields fs)).length + 2) [] hne hplain (by omega)
  cases fs with
  | nil => exact absurd rfl hne
  | cons kv fs' =>
      unfold jsonParse
      rw [Json.stringify]
      simp only [List.length_cons, List.length_append, List.length_nil, Nat.zero_add]
      rw [show (Json.stringifyFields (strFields (kv :: fs'))).length + 1 + 1 + 1
          = ((Json.stringifyFields (strFields (kv :: fs'))).length + 2) + 1 from rfl]
      simp only [jsonParseValue, if_true]
      obtain ⟨k, v⟩ := kv
      cases fs' with
      | nil =>
          simp only [strFields, List.map_singleton, Json.stringifyFields,
            List.cons_append, List.singleton_append] at hmem ⊢
          rw [hmem]
          rfl
      | cons kv2 fs'' =>
          simp only [strFields, List.map_cons, Json.stringifyFields,
            List.cons_append, List.append_assoc, List.singleton_append] at hmem ⊢
          rw [hmem]
          rfl

/-! ## Lemmas about the idealized crypto layer -/

theorem gcmTag_length (key iv body : List Nat) : (gcmTag key iv body).length = 16 := by
  simp [gcmTag, expandBytes_length, GCM_TAG_LENGTH]

theorem gcmTag_lt (key iv body : List Nat) : ∀ b ∈ gcmTag key iv body, b < 256 := by
  intro b hb
  simp only [gcmTag, List.mem_cons] at hb
  rcases hb with rfl | hb
  · exact Nat.mod_lt _ (by omega)
  · exact expandBytes_lt _ _ b hb

theorem aesGcmEncrypt_length (key iv data : List Nat) :
    (aesGcmEncrypt key iv data).length = data.length + 16 := by
  simp [aesGcmEncrypt, List.length_zipWith, gcmTag_length, expandBytes_length, gcmKeystream]

theorem aesGcmEncrypt_lt (key iv data : List Nat) : ∀ b ∈ aesGcmEncrypt key iv data, b < 256 := by
  intro b hb
  simp only [aesGcmEncrypt, List.mem_append] at hb
  rcases hb with hb | hb
  · rw [List.mem_iff_get] at hb
    obtain ⟨i, hi⟩ := hb
    rw [List.get_zipWith] at hi
    omega
  · exact gcmTag_lt _ _ _ b hb

theorem mlKemKeygen_pk_lt (seed : List Nat) : ∀ b ∈ (mlKemKeygen seed).1, b < 256 := by
  intro b hb
  simp only [mlKemKeygen, List.mem_cons] at hb
  rcases hb with rfl | hb
  · have := Nat.mod_lt (byteHash seed) (by omega : 0 < 251)
    omega
  · exact expandBytes_lt _ _ b hb

theorem mlDsaKeygen_pk_lt (seed : List Nat) : ∀ b ∈ (mlDsaKeygen seed).1, b < 256 := by
  intro b hb
  simp only [mlDsaKeygen] at hb
  exact expandBytes_lt _ _ b hb

theorem mlDsaSigOf_lt (msg pk : List Nat) : ∀ b ∈ mlDsaSigOf msg pk, b < 256 := by
  intro b hb
  simp only [mlDsaSigOf, List.mem_cons] at hb
  rcases hb with rfl | hb
  · exact Nat.mod_lt _ (by omega)
  · exact expandBytes_lt _ _ b hb

/-- The signature `sealData` embeds verifies against the embedded signing
public key. -/
theorem mlDsaVerify_sign (msg seed : List Nat) :
    mlDsaVerify msg (mlDsaSign msg (mlDsaKeygen seed).2) (mlDsaKeygen seed).1 = true := by
  simp only [mlDsaVerify, mlDsaSign, mlDsaKeygen, List.headD_cons, Nat.add_sub_cancel]
  exact beq_self_eq_true _

/-- Authenticated decryption of `body ++ tag` fails whenever the presented
key and IV do not reproduce the tag. -/
theorem aesGcmDecrypt_append (key2 iv2 body tag : List Nat) (htag : tag.length = 16)
    (hne : tag ≠ gcmTag key2 iv2 body) :
    aesGcmDecrypt key2 iv2 (body ++ tag) = .error operationError := by
  have h1 : (body ++ tag).length - GCM_TAG_LENGTH = body.length := by
    simp [List.length_append, htag, GCM_TAG_LENGTH]
  simp only [aesGcmDecrypt, List.length_append, htag, GCM_TAG_LENGTH]
  rw [if_neg (by omega)]
  have h2 : body.length + 16 - 16 = body.length := by omega
  rw [h2, List.take_left, List.drop_left, if_neg (by simpa [beq_iff_eq] using hne)]

/-- The central cryptographic failure of `unsealData`: decryption under a
*decapsulated* key never opens a ciphertext produced under an
*encapsulated* key (in the model, their first bytes differ in parity), for
any decapsulation inputs and any IV.  In the source, `unsealData` passes
the AES-GCM ciphertext and the KEM public key to `decapsulate` (instead of
a KEM ciphertext and a secret key, which the seal does not even contain)
and an all-zero IV (the sealing IV is never stored), so
`crypto.subtle.decrypt` always rejects. -/
theorem aesGcmDecrypt_decap_encap (pk rnd A B iv iv2 data : List Nat) :
    aesGcmDecrypt (mlKemDecapsulate A B) iv2
      (aesGcmEncrypt (mlKemEncapsulate pk rnd).2 iv data) = .error operationError := by
  rw [aesGcmEncrypt]
  refine aesGcmDecrypt_append _ _ _ _ (gcmTag_length _ _ _) ?_
  intro he
  have h0 := congrArg (fun l => l.headD 0) he
  simp only [gcmTag, List.headD_cons] at h0
  have hk1 : ((mlKemEncapsulate pk rnd).2).headD 0 = 2 * byteHash (pk ++ rnd) % 256 := by
    simp only [mlKemEncapsulate]
    exact expandBytes_head _ _ (by decide)
  have hk2 : (mlKemDecapsulate A B).headD 0 = (2 * byteHash (A ++ B) + 1) % 256 := by
    simp only [mlKemDecapsulate]
    exact expandBytes_head _ _ (by decide)
  rw [hk1, hk2] at h0
  omega

/-! ## Lemmas about `parseSeal` on well-formed tokens -/

theorem splitOn_append (sep : Nat) (xs ys : List Nat) (h : ∀ c ∈ xs, c ≠ sep) :
    splitOn sep (xs ++ (sep :: ys)) = xs :: splitOn sep ys := by
  induction xs with
  | nil => simp [splitOn]
  | cons c cs ih =>
      have hc : c ≠ sep := h c (by simp)
      rw [List.cons_append, splitOn, ih (fun d hd => h d (by simp [hd])), if_neg hc]

theorem natCodes_two : natCodes 2 = [50] := rfl

/-- Evaluating `parseSeal` on a freshly produced token: the payload before the `~`,
and the parsed current major version. -/
theorem parseSeal_append_version (payload : List Nat) (h : ∀ c ∈ payload, c ≠ 126) :
    parseSeal (payload ++ (126 :: [50])) = .ok ⟨payload, some 2⟩ := by
  rw [parseSeal, show versionDelimiter = 126 from rfl, splitOn_append _ _ _ h]
  rfl

/-! ## The unseal-of-seal chain -/

theorem except_bind_ok {ε α β : Type} (a : α) (f : α → Except ε β) :
    (Except.ok a : Except ε α) >>= f = f a := rfl

theorem except_bind_err {ε α β : Type} (e : ε) (f : α → Except ε β) :
    (Except.error e : Except ε α) >>= f = .error e := rfl

/-- The seal payload, viewed as a string-valued field list. -/
def sealFields (r : PQSealResult) : List (String × List Nat) :=
  [("ciphertext", r.ciphertext), ("publicKey", r.publicKey),
   ("signature", r.signature), ("signPublicKey", r.signPublicKey)]

theorem sealObjJson_eq_strFields (r : PQSealResult) :
    sealObjJson r = Json.obj (strFields (sealFields r)) := rfl

theorem sealComponents_ciphertext (data : SealInput) (seeds : SealSeeds) :
    (sealComponents data seeds).ciphertext = base64urlStringify
      (aesGcmEncrypt (mlKemEncapsulate (mlKemKeygen seeds.kemSeed).1 seeds.encapRandomness).2
        seeds.iv data.toBytes) := by
  simp only [sealComponents]

theorem sealComponents_publicKey (data : SealInput) (seeds : SealSeeds) :
    (sealComponents data seeds).publicKey
      = base64urlStringify (mlKemKeygen seeds.kemSeed).1 := by
  simp only [sealComponents]

theorem sealComponents_signature (data : SealInput) (seeds : SealSeeds) :
    (sealComponents data seeds).signature = base64urlStringify
      (mlDsaSign (aesGcmEncrypt (mlKemEncapsulate (mlKemKeygen seeds.kemSeed).1
          seeds.encapRandomness).2 seeds.iv data.toBytes)
        (mlDsaKeygen seeds.dsaSeed).2) := by
  simp only [sealComponents]

theorem sealComponents_signPublicKey (data : SealInput) (seeds : SealSeeds) :
    (sealComponents data seeds).signPublicKey
      = base64urlStringify (mlDsaKeygen seeds.dsaSeed).1 := by
  simp only [sealComponents]

theorem getField_ciphertext (r : PQSealResult) :
    jsGetStringField (Json.obj (strFields (sealFields r))) "ciphertext" = .ok r.ciphertext := rfl

theorem getField_publicKey (r : PQSealResult) :
    jsGetStringField (Json.obj (strFields (sealFields r))) "publicKey" = .ok r.publicKey := rfl

theorem getField_signature (r : PQSealResult) :
    jsGetStringField (Json.obj (strFields (sealFields r))) "signature" = .ok r.signature := rfl

theorem getField_signPublicKey (r : PQSealResult) :
    jsGetStringField (Json.obj (strFields (sealFields r))) "signPublicKey"
      = .ok r.signPublicKey := rfl

theorem mem_jsonEscape (s : List Nat) : ∀ c ∈ jsonEscape s, c = 92 ∨ c ∈ s := by
  induction s with
  | nil => simp [jsonEscape]
  | cons x xs ih =>
      intro c hc
      rw [jsonEscape] at hc
      split at hc
      · simp only [List.mem_cons] at hc
        rcases hc with rfl | rfl | hc
        · exact Or.inl rfl
        · exact Or.inr (by simp)
        · rcases ih c hc with h | h
          · exact Or.inl h
          · exact Or.inr (by simp [h])
      · simp only [List.mem_cons] at hc
        rcases hc with rfl | hc
        · exact Or.inr (by simp)
        · rcases ih c hc with h | h
          · exact Or.inl h
          · exact Or.inr (by simp [h])

theorem mem_stringifyFields_strFields (fs : List (String × List Nat))
    (h : ∀ kv ∈ fs, (∀ c ∈ codes kv.1, c < 256) ∧ (∀ c ∈ kv.2, c < 256)) :
    ∀ c ∈ Json.stringifyFields (strFields fs), c < 256 := by
  induction fs with
  | nil => simp [strFields, Json.stringifyFields]
  | cons kv fs' ih =>
      obtain ⟨k, v⟩ := kv
      have hk : ∀ c ∈ codes k, c < 256 := (h (k, v) (by simp)).1
      have hv : ∀ c ∈ v, c < 256 := (h (k, v) (by simp)).2
      have hmember : ∀ c ∈ (34 :: (jsonEscape (codes k)
          ++ (34 :: 58 :: (Json.str v).stringify))), c < 256 := by
        intro c hc
        simp only [Json.stringify, List.mem_cons, List.mem_append] at hc
        rcases hc with rfl | hc | rfl | rfl | hc
        · omega
        · rcases mem_jsonEscape _ c hc with rfl | hc
          · omega
          · exact hk c hc
        · omega
        · omega
        · rcases hc with rfl | hc | hc
          · omega
          · rcases mem_jsonEscape _ c hc with rfl | hc2
            · omega
            · exact hv c hc2
          · simp at hc
            omega
      cases fs' with
      | nil =>
          intro c hc
          refine hmember c ?_
          simpa [strFields, Json.stringifyFields] using hc
      | cons kv2 fs'' =>
          intro c hc
          simp only [strFields, List.map_cons, Json.stringifyFields, List.mem_append,
            List.mem_cons] at hc
          rcases hc with hc | rfl | hc
          · exact hmember c (by simpa using hc)
          · omega
          · exact ih (fun kv hkv => h kv (by simp [hkv])) c
              (by simpa [strFields] using hc)

theorem mem_stringify_strObj (fs : List (String × List Nat))
    (h : ∀ kv ∈ fs, (∀ c ∈ codes kv.1, c < 256) ∧ (∀ c ∈ kv.2, c < 256)) :
    ∀ c ∈ (Json.obj (strFields fs)).stringify, c < 256 := by
  intro c hc
  simp only [Json.stringify, List.mem_cons, List.mem_append, List.mem_singleton] at hc
  rcases hc with rfl | hc | hc
  · omega
  · exact mem_stringifyFields_strFields fs h c hc
  · rcases hc with rfl | h
    · omega
    · simp at h

theorem mlDsaSign_lt (msg sk : List Nat) : ∀ b ∈ mlDsaSign msg sk, b < 256 := by
  rw [mlDsaSign]
  exact mlDsaSigOf_lt _ _

/-- Unfolding `sealComponents` to an explicit record of the four base64url strings. -/
theorem sealComponents_eq (data : SealInput) (seeds : SealSeeds) :
    sealComponents data seeds =
      ⟨base64urlStringify (aesGcmEncrypt
          (mlKemEncapsulate (mlKemKeygen seeds.kemSeed).1 seeds.encapRandomness).2
          seeds.iv data.toBytes),
       base64urlStringify (mlKemKeygen seeds.kemSeed).1,
       base64urlStringify (mlDsaSign (aesGcmEncrypt
          (mlKemEncapsulate (mlKemKeygen seeds.kemSeed).1 seeds.encapRandomness).2
          seeds.iv data.toBytes) (mlDsaKeygen seeds.dsaSeed).2),
       base64urlStringify (mlDsaKeygen seeds.dsaSeed).1⟩ := by
  simp only [sealComponents]

/-- All characters of the four seal components and their keys are single
bytes (literal-record form). -/
theorem sealFieldsLit_lt (A B C D : List Nat) :
    ∀ kv ∈ sealFields ⟨base64urlStringify A, base64urlStringify B,
        base64urlStringify C, base64urlStringify D⟩,
      (∀ c ∈ codes kv.1, c < 256) ∧ (∀ c ∈ kv.2, c < 256) := by
  intro kv hkv
  simp only [sealFields, List.mem_cons, List.mem_singleton] at hkv
  rcases hkv with rfl | rfl | rfl | rfl | h
  · exact ⟨by show ∀ c ∈ codes "ciphertext", c < 256; decide,
      fun c hc => (mem_base64urlStringify_ne _ c hc).2.2.2⟩
  · exact ⟨by show ∀ c ∈ codes "publicKey", c < 256; decide,
      fun c hc => (mem_base64urlStringify_ne _ c hc).2.2.2⟩
  · exact ⟨by show ∀ c ∈ codes "signature", c < 256; decide,
      fun c hc => (mem_base64urlStringify_ne _ c hc).2.2.2⟩
  · exact ⟨by show ∀ c ∈ codes "signPublicKey", c < 256; decide,
      fun c hc => (mem_base64urlStringify_ne _ c hc).2.2.2⟩
  · simp at h

/-- No character of the seal components or their keys needs JSON escaping
(literal-record form). -/
theorem sealFieldsLit_plain (A B C D : List Nat) :
    ∀ kv ∈ sealFields ⟨base64urlStringify A, base64urlStringify B,
        base64urlStringify C, base64urlStringify D⟩,
      plainCodes (codes kv.1) ∧ plainCodes kv.2 := by
  intro kv hkv
  simp only [sealFields, List.mem_cons, List.mem_singleton] at hkv
  rcases hkv with rfl | rfl | rfl | rfl | h
  · exact ⟨by show ∀ c ∈ codes "ciphertext", c ≠ 34 ∧ c ≠ 92; decide, plainCodes_b64 _⟩
  · exact ⟨by show ∀ c ∈ codes "publicKey", c ≠ 34 ∧ c ≠ 92; decide, plainCodes_b64 _⟩
  · exact ⟨by show ∀ c ∈ codes "signature", c ≠ 34 ∧ c ≠ 92; decide, plainCodes_b64 _⟩
  · exact ⟨by show ∀ c ∈ codes "signPublicKey", c ≠ 34 ∧ c ≠ 92; decide, plainCodes_b64 _⟩
  · simp at h

/-- All characters of the four seal components and their keys are single
bytes. -/
theorem sealFields_lt (data : SealInput) (seeds : SealSeeds) :
    ∀ kv ∈ sealFields (sealComponents data seeds),
      (∀ c ∈ codes kv.1, c < 256) ∧ (∀ c ∈ kv.2, c < 256) := by
  have h := sealFieldsLit_lt
    (aesGcmEncrypt (mlKemEncapsulate (mlKemKeygen seeds.kemSeed).1 seeds.encapRandomness).2
      seeds.iv data.toBytes)
    ((mlKemKeygen seeds.kemSeed).1)
    (mlDsaSign (aesGcmEncrypt
      (mlKemEncapsulate (mlKemKeygen seeds.kemSeed).1 seeds.encapRandomness).2
      seeds.iv data.toBytes) (mlDsaKeygen seeds.dsaSeed).2)
    ((mlDsaKeygen seeds.dsaSeed).1)
  rw [← sealComponents_eq] at h
  exact h

/-- No character of the seal components or their keys needs JSON escaping. -/
theorem sealFields_plain (data : SealInput) (seeds : SealSeeds) :
    ∀ kv ∈ sealFields (sealComponents data seeds),
      plainCodes (codes kv.1) ∧ plainCodes kv.2 := by
  have h := sealFieldsLit_plain
    (aesGcmEncrypt (mlKemEncapsulate (mlKemKeygen seeds.kemSeed).1 seeds.encapRandomness).2
      seeds.iv data.toBytes)
    ((mlKemKeygen seeds.kemSeed).1)
    (mlDsaSign (aesGcmEncrypt
      (mlKemEncapsulate (mlKemKeygen seeds.kemSeed).1 seeds.encapRandomness).2
      seeds.iv data.toBytes) (mlDsaKeygen seeds.dsaSeed).2)
    ((mlDsaKeygen seeds.dsaSeed).1)
  rw [← sealComponents_eq] at h
  exact h

/-- Running the `try` body of `unsealData` over a freshly produced payload:
every decoding step succeeds and signature verification passes, but
authenticated decryption fails (wrong key, wrong IV) with an
`OperationError`. -/
theorem unsealBody_sealPayload (data : SealInput) (seeds : SealSeeds) :
    unsealBody (base64urlStringify ((sealObjJson (sealComponents data seeds)).stringify))
      = .error operationError := by
  rw [unsealBody, sealObjJson_eq_strFields]
  rw [base64urlParseLoose_stringify _ (mem_stringify_strObj _ (sealFields_lt data seeds))]
  rw [except_bind_ok]
  rw [jsonParse_strObj _ (by simp [sealFields]) (sealFields_plain data seeds)]
  rw [except_bind_ok]
  rw [getField_ciphertext, except_bind_ok, getField_publicKey, except_bind_ok,
    getField_signature, except_bind_ok, getField_signPublicKey, except_bind_ok]
  rw [sealComponents_ciphertext, sealComponents_publicKey, sealComponents_signature,
    sealComponents_signPublicKey]
  rw [base64urlParse_stringify _ (aesGcmEncrypt_lt _ _ _), except_bind_ok,
    base64urlParse_stringify _ (mlKemKeygen_pk_lt _), except_bind_ok,
    base64urlParse_stringify _ (mlDsaSign_lt _ _), except_bind_ok,
    base64urlParse_stringify _ (mlDsaKeygen_pk_lt _), except_bind_ok]
  rw [mlDsaVerify_sign, if_neg (by simp)]
  simp only [aesGcmDecrypt_decap_encap, except_bind_err]

/-- Key fact: `unsealData` applied to any token `sealData` can produce throws an
`OperationError` — the round trip never returns the sealed value and never
recovers to an empty session, for every input and every randomness. -/
theorem unseal_sealData (data : SealInput) (opts opts2 : SealOptions) (seeds : SealSeeds) :
    unsealData (sealData data opts seeds) opts2 = .error operationError := by
  rw [sealData, show versionDelimiter :: natCodes currentMajorVersion = 126 :: [50] from rfl]
  rw [unsealData]
  rw [parseSeal_append_version _ (fun c hc => (mem_base64urlStringify_ne _ c hc).1)]
  rw [except_bind_ok]
  rw [show (ParsedSeal.mk (base64urlStringify
      ((sealObjJson (sealComponents data seeds)).stringify)) (some 2)).sealWithoutVersion
    = base64urlStringify ((sealObjJson (sealComponents data seeds)).stringify) from rfl]
  rw [unsealBody_sealPayload]
  have hf : isSealError operationError = false := by decide
  simp [hf]

/-! ## Token length: every token exceeds the 4096-character cookie limit -/

theorem base64urlStringify_length_ge (bs : List Nat) :
    bs.length ≤ (base64urlStringify bs).length := by
  rw [base64urlStringify_length]
  omega

theorem jsonEscape_length_ge (s : List Nat) : s.length ≤ (jsonEscape s).length := by
  induction s with
  | nil => simp
  | cons c cs ih =>
      rw [jsonEscape]
      split <;> simp <;> omega

theorem mlDsaSign_length (msg sk : List Nat) : (mlDsaSign msg sk).length = 4627 := by
  simp [mlDsaSign, mlDsaSigOf, expandBytes_length, ML_DSA_SIG_LENGTH]

theorem stringifyFields_sealFields_ge (r : PQSealResult) :
    r.signature.length ≤ (Json.stringifyFields (strFields (sealFields r))).length := by
  have h := jsonEscape_length_ge r.signature
  simp only [sealFields, strFields, List.map_cons, List.map_nil, Json.stringifyFields,
    Json.stringify, List.length_cons, List.length_append]
  omega

/-- Every token `sealData` can produce is longer than 4096 characters: the
base64url encoding of the payload is at least as long as the payload,
which contains the 6172-character base64url signature component alone. -/
theorem sealData_length_gt (data : SealInput) (opts : SealOptions) (seeds : SealSeeds) :
    4096 < (sealData data opts seeds).length := by
  rw [sealData]
  simp only [List.length_append, List.length_cons]
  have h1 := base64urlStringify_length_ge ((sealObjJson (sealComponents data seeds)).stringify)
  have h2 : (sealComponents data seeds).signature.length
      ≤ ((sealObjJson (sealComponents data seeds)).stringify).length := by
    rw [sealObjJson_eq_strFields, Json.stringify]
    have := stringifyFields_sealFields_ge (sealComponents data seeds)
    simp only [List.length_cons, List.length_append, List.length_singleton]
    omega
  have h3 : (sealComponents data seeds).signature.length = 6172 := by
    rw [sealComponents_signature, base64urlStringify_length, mlDsaSign_length]
  omega

theorem encodeURIComponent_length_ge (s : List Nat) :
    s.length ≤ (encodeURIComponent s).length := by
  induction s with
  | nil => simp
  | cons c cs ih =>
      rw [encodeURIComponent]
      split <;> simp <;> omega

theorem serializeCookie_length_ge (name value : List Nat) (o : ResolvedCookieOptions) :
    value.length ≤ (serializeCookie name value o).length := by
  have h := encodeURIComponent_length_ge value
  simp only [serializeCookie, List.length_append, List.length_cons]
  omega

/-- Evaluating `save()` on the request/response transport always throws the size-guard
usage error: the serialized cookie contains the whole token. -/
theorem saveHeader_error (session : JsObject) (pw : List (String × String))
    (cfg : SessionConfig) (seeds : SealSeeds) (res : List (List Nat)) :
    saveHeader session pw cfg seeds false res = .error cookieTooBigError := by
  have h1 := sealData_length_gt (.json (sessionToJson session)) ⟨.map pw, cfg.ttl⟩ seeds
  have h2 := serializeCookie_length_ge (codes cfg.cookieName)
    (sessionSeal session pw cfg seeds) cfg.cookieOptions
  rw [sessionSeal] at h2
  simp only [saveHeader, Bool.false_eq_true, if_false, sessionSeal]
  rw [if_pos (by omega)]

/-- Evaluating `save()` on the cookie-store transport always throws the size-guard
usage error: its estimated length includes the whole token length. -/
theorem saveStore_error (session : JsObject) (pw : List (String × String))
    (cfg : SessionConfig) (seeds : SealSeeds) :
    saveStore session pw cfg seeds = .error cookieTooBigError := by
  have h1 := sealData_length_gt (.json (sessionToJson session)) ⟨.map pw, cfg.ttl⟩ seeds
  simp only [saveStore, sessionSeal]
  rw [if_pos (by omega)]

/-! ## Session-object lemmas -/

theorem destroyFields_not_enumerable (s : JsObject) :
    ∀ p ∈ destroyFields s, p.enumerable = false := by
  intro p hp
  simp only [destroyFields, deleteKeys, List.mem_filter] at hp
  obtain ⟨hmem, hnc⟩ := hp
  by_contra hen
  rw [Bool.not_eq_false] at hen
  have hkey : p.name ∈ objectKeys s := by
    simp only [objectKeys, List.mem_map]
    exact ⟨p, List.mem_filter.mpr ⟨hmem, hen⟩, rfl⟩
  simp [List.contains, List.elem_eq_mem, hkey] at hnc

theorem objectKeys_destroyFields (s : JsObject) : objectKeys (destroyFields s) = [] := by
  have h : (destroyFields s).filter (·.enumerable) = [] := by
    rw [List.filter_eq_nil]
    intro p hp
    simp [destroyFields_not_enumerable s p hp]
  rw [objectKeys, h]
  rfl

/-- After `destroy()`, the serialized session value is the empty object. -/
theorem sessionToJson_destroyFields (s : JsObject) :
    sessionToJson (destroyFields s) = .obj [] := by
  rw [sessionToJson]
  congr 1
  rw [List.filterMap_eq_nil]
  intro p hp
  rw [destroyFields_not_enumerable s p hp]
  simp

theorem find?_append_none {α : Type} (p : α → Bool) (l₁ l₂ : List α)
    (h : l₁.find? p = none) : (l₁ ++ l₂).find? p = l₂.find? p := by
  induction l₁ with
  | nil => simp
  | cons x xs ih =>
      cases hpx : p x with
      | true => rw [List.find?_cons_of_pos _ hpx] at h; exact absurd h (by simp)
      | false =>
          rw [List.find?_cons_of_neg _ (by simp [hpx])] at h
          rw [List.cons_append, List.find?_cons_of_neg _ (by simp [hpx])]
          exact ih h

theorem any_eq_false_of_find?_none {α : Type} (p : α → Bool) (l : List α)
    (h : l.find? p = none) : l.any p = false := by
  rw [List.any_eq_false]
  intro x hx
  exact List.find?_eq_none.mp h x hx

/-- The three bound operations as the property list `defineProperties`
appends to a session object that does not already use their names. -/
def sessionMethodProps : List JsProp :=
  [⟨"updateConfig", .fn "updateConfig", false⟩, ⟨"save", .fn "save", false⟩,
   ⟨"destroy", .fn "destroy", false⟩]

/-- On a session whose own properties use none of the three operation
names, `Object.defineProperties` appends the three methods with the
descriptor default `enumerable: false`. -/
theorem definePropValue_absent (s : JsObject) (n : String) (v : PropValue)
    (h : (s.any fun p => p.name == n) = false) :
    definePropValue s n v = s ++ [⟨n, v, false⟩] := by
  rw [definePropValue, if_neg (by simp [h])]

theorem installSessionMethods_absent (s : JsObject)
    (h1 : ownProp? s "updateConfig" = none) (h2 : ownProp? s "save" = none)
    (h3 : ownProp? s "destroy" = none) :
    installSessionMethods s = s ++ sessionMethodProps := by
  have a1 := any_eq_false_of_find?_none _ _ h1
  have a2 := any_eq_false_of_find?_none _ _ h2
  have a3 := any_eq_false_of_find?_none _ _ h3
  rw [installSessionMethods, definePropValue_absent s _ _ a1]
  rw [definePropValue_absent
    (s ++ [(⟨"updateConfig", .fn "updateConfig", false⟩ : JsProp)]) "save"
    (.fn "save") (by rw [List.any_append, a2]; decide)]
  rw [definePropValue_absent
    ((s ++ [(⟨"updateConfig", .fn "updateConfig", false⟩ : JsProp)])
      ++ [(⟨"save", .fn "save", false⟩ : JsProp)]) "destroy"
    (.fn "destroy") (by rw [List.any_append, List.any_append, a3]; decide)]
  simp [sessionMethodProps]

theorem not_named_of_ownProp?_none (s : JsObject) (n : String)
    (h : ownProp? s n = none) : ∀ p ∈ s, p.name ≠ n := by
  intro p hp
  have := List.find?_eq_none.mp h p hp
  simpa using this

theorem not_mem_objectKeys_of_ownProp?_none (s : JsObject) (n : String)
    (h : ownProp? s n = none) : ¬ n ∈ objectKeys s := by
  intro hmem
  simp only [objectKeys, List.mem_map] at hmem
  obtain ⟨p, hp, rfl⟩ := hmem
  exact not_named_of_ownProp?_none s _ h p (List.mem_filter.mp hp).1 rfl

/-! ## Wire-level behavior of `unsealData` on well-formed tokens -/

theorem getFieldLit_ciphertext (a b c d : List Nat) :
    jsGetStringField (Json.obj (strFields (sealFields ⟨a, b, c, d⟩))) "ciphertext" = .ok a := rfl

theorem getFieldLit_publicKey (a b c d : List Nat) :
    jsGetStringField (Json.obj (strFields (sealFields ⟨a, b, c, d⟩))) "publicKey" = .ok b := rfl

theorem getFieldLit_signature (a b c d : List Nat) :
    jsGetStringField (Json.obj (strFields (sealFields ⟨a, b, c, d⟩))) "signature" = .ok c := rfl

theorem getFieldLit_signPublicKey (a b c d : List Nat) :
    jsGetStringField (Json.obj (strFields (sealFields ⟨a, b, c, d⟩))) "signPublicKey"
      = .ok d := rfl

/-- The `try` body of `unsealData` on any well-formed token payload built
from four byte strings: decoding always succeeds and the behavior reduces
to signature verification followed by decapsulate-and-decrypt. -/
theorem unsealBody_wellFormed (A B C D : List Nat)
    (hA : ∀ x ∈ A, x < 256) (hB : ∀ x ∈ B, x < 256)
    (hC : ∀ x ∈ C, x < 256) (hD : ∀ x ∈ D, x < 256) :
    unsealBody (base64urlStringify ((sealObjJson ⟨base64urlStringify A, base64urlStringify B,
        base64urlStringify C, base64urlStringify D⟩).stringify))
    = if mlDsaVerify A C D = false then .error ⟨"Invalid signature"⟩
      else (aesGcmDecrypt (mlKemDecapsulate A B) (List.replicate 12 0) A
          >>= fun decryptedData =>
        match jsonParse decryptedData with
        | .ok v => .ok (.json v)
        | .error _ => .ok (.bytes decryptedData)) := by
  rw [unsealBody, sealObjJson_eq_strFields]
  rw [base64urlParseLoose_stringify _ (mem_stringify_strObj _ (sealFieldsLit_lt A B C D))]
  rw [except_bind_ok]
  rw [jsonParse_strObj _ (by simp [sealFields]) (sealFieldsLit_plain A B C D)]
  rw [except_bind_ok]
  rw [getFieldLit_ciphertext, except_bind_ok, getFieldLit_publicKey, except_bind_ok,
    getFieldLit_signature, except_bind_ok, getFieldLit_signPublicKey, except_bind_ok]
  rw [base64urlParse_stringify _ hA, except_bind_ok, base64urlParse_stringify _ hB,
    except_bind_ok, base64urlParse_stringify _ hC, except_bind_ok,
    base64urlParse_stringify _ hD, except_bind_ok]

/-- A token in the exact wire format `sealData` emits, for arbitrary
components. -/
def sealTokenOf (r : PQSealResult) : List Nat :=
  base64urlStringify ((sealObjJson r).stringify)
    ++ (versionDelimiter :: natCodes currentMajorVersion)

theorem sealData_eq_tokenOf (data : SealInput) (opts : SealOptions) (seeds : SealSeeds) :
    sealData data opts seeds = sealTokenOf (sealComponents data seeds) := rfl

/-- Evaluating `unsealData` on a well-formed token: parse the version suffix, run the
`try` body on the payload, recover recognized errors to the empty object. -/
theorem unseal_tokenOf (r : PQSealResult) (opts : SealOptions) :
    unsealData (sealTokenOf r) opts
    = match unsealBody (base64urlStringify ((sealObjJson r).stringify)) with
      | .ok v => .ok v
      | .error e => if isSealError e then .ok (.json (Json.obj [])) else .error e := by
  rw [sealTokenOf, show versionDelimiter :: natCodes currentMajorVersion = 126 :: [50] from rfl]
  rw [unsealData, parseSeal_append_version _ (fun c hc => (mem_base64urlStringify_ne _ c hc).1)]
  rw [except_bind_ok]

/-! ## Single-byte tampering -/

/-- A single-byte modification: the first byte is changed (adding one
modulo 256, which always alters it and flips its parity). -/
def bumpHead : List Nat → List Nat
  | [] => []
  | b :: rest => (b + 1) % 256 :: rest

theorem bumpHead_lt (l : List Nat) (h : ∀ b ∈ l, b < 256) : ∀ b ∈ bumpHead l, b < 256 := by
  cases l with
  | nil => simp [bumpHead]
  | cons c rest =>
      intro b hb
      simp only [bumpHead, List.mem_cons] at hb
      rcases hb with rfl | hb
      · exact Nat.mod_lt _ (by omega)
      · exact h b (by simp [hb])

theorem aesGcmEncrypt_ne_nil (key iv data : List Nat) : aesGcmEncrypt key iv data ≠ [] := by
  intro h
  have hl := aesGcmEncrypt_length key iv data
  rw [h] at hl
  simp at hl

/-- Verification rejects the signature of a message whose first byte was
modified (the model signature binds the first message byte by parity). -/
theorem mlDsaVerify_sign_bump (msg seed : List Nat) (hmsg : msg ≠ [])
    (hb : msg.headD 0 < 256) :
    mlDsaVerify (bumpHead msg) (mlDsaSign msg (mlDsaKeygen seed).2)
      (mlDsaKeygen seed).1 = false := by
  cases msg with
  | nil => exact absurd rfl hmsg
  | cons c rest =>
      simp only [List.headD_cons] at hb
      simp only [mlDsaVerify, mlDsaSign, mlDsaKeygen, List.headD_cons, Nat.add_sub_cancel,
        bumpHead]
      rw [beq_eq_false_iff_ne]
      intro he
      have h0 := congrArg (fun l => l.headD 0) he
      simp only [mlDsaSigOf, List.headD_cons] at h0
      omega

/-- The token `sealData` would produce from `data` and `seeds`, with the
embedded KEM public key component replaced by the same key with its first
byte modified (the signature does not cover this component). -/
def tamperPublicKey (data : SealInput) (seeds : SealSeeds) : List Nat :=
  sealTokenOf ⟨(sealComponents data seeds).ciphertext,
    base64urlStringify (bumpHead (mlKemKeygen seeds.kemSeed).1),
    (sealComponents data seeds).signature,
    (sealComponents data seeds).signPublicKey⟩

/-- The token `sealData` would produce from `data` and `seeds`, with the
ciphertext component replaced by the same ciphertext with its first byte
modified. -/
def tamperCiphertext (data : SealInput) (seeds : SealSeeds) : List Nat :=
  sealTokenOf ⟨base64urlStringify (bumpHead (aesGcmEncrypt
      (mlKemEncapsulate (mlKemKeygen seeds.kemSeed).1 seeds.encapRandomness).2
      seeds.iv data.toBytes)),
    (sealComponents data seeds).publicKey,
    (sealComponents data seeds).signature,
    (sealComponents data seeds).signPublicKey⟩

/-- Unsealing a token whose embedded KEM public key was modified in one
byte: the signature still verifies (it covers only the ciphertext), and
the decapsulate-and-decrypt failure propagates as an exception. -/
theorem unseal_tamperPublicKey (data : SealInput) (opts : SealOptions) (seeds : SealSeeds) :
    unsealData (tamperPublicKey data seeds) opts = .error operationError := by
  rw [tamperPublicKey, sealComponents_ciphertext, sealComponents_signature,
    sealComponents_signPublicKey]
  rw [unseal_tokenOf]
  rw [unsealBody_wellFormed _ _ _ _ (aesGcmEncrypt_lt _ _ _)
    (bumpHead_lt _ (mlKemKeygen_pk_lt _)) (mlDsaSign_lt _ _) (mlDsaKeygen_pk_lt _)]
  rw [mlDsaVerify_sign, if_neg (by simp)]
  rw [aesGcmDecrypt_decap_encap]
  simp [except_bind_err, show isSealError operationError = false from by decide]

/-- Unsealing a token whose ciphertext was modified in one byte: signature
verification fails, the `Invalid signature` error is recognized, and
`unsealData` recovers to the empty object. -/
theorem unseal_tamperCiphertext (data : SealInput) (opts : SealOptions) (seeds : SealSeeds) :
    unsealData (tamperCiphertext data seeds) opts = .ok (.json (Json.obj [])) := by
  rw [tamperCiphertext, sealComponents_publicKey, sealComponents_signature,
    sealComponents_signPublicKey]
  rw [unseal_tokenOf]
  rw [unsealBody_wellFormed _ _ _ _
    (bumpHead_lt _ (aesGcmEncrypt_lt _ _ _)) (mlKemKeygen_pk_lt _)
    (mlDsaSign_lt _ _) (mlDsaKeygen_pk_lt _)]
  rw [mlDsaVerify_sign_bump _ _ (aesGcmEncrypt_ne_nil _ _ _) ?hb]
  case hb =>
    cases hct : aesGcmEncrypt (mlKemEncapsulate (mlKemKeygen seeds.kemSeed).1
        seeds.encapRandomness).2 seeds.iv data.toBytes with
    | nil => exact absurd hct (aesGcmEncrypt_ne_nil _ _ _)
    | cons c rest =>
        rw [List.headD_cons]
        have := aesGcmEncrypt_lt (mlKemEncapsulate (mlKemKeygen seeds.kemSeed).1
          seeds.encapRandomness).2 seeds.iv data.toBytes c (by rw [hct]; simp)
        exact this
  rw [if_pos rfl]
  simp [show isSealError ⟨"Invalid signature"⟩ = true from by decide]

/-! ## The claims -/

/-- Claim C1. The claimed round trip `unseal(seal(v, K, ttl), K, ttl) = v`
fails on the code: for every value, every key set and every randomness,
unsealing a freshly produced seal throws an `OperationError` (the
decryption key is decapsulated from the AES ciphertext and the KEM public
key, and the IV is zero instead of the sealing IV), and that error does
not match the recovery pattern, so it propagates instead of returning the
original value. -/
theorem claim1_roundtrip_fails (data : SealInput) (opts opts2 : SealOptions)
    (seeds : SealSeeds) :
    unsealData (sealData data opts seeds) opts2 = .error operationError
  ∧ isSealError operationError = false :=
  ⟨unseal_sealData data opts opts2 seeds, by decide⟩

/-- Claim C2. Tamper behavior: modifying a byte of the ciphertext does return
the empty value (signature verification fails and is recovered), but
modifying a byte of the embedded KEM public key — which the signature does
not cover — makes `unsealData` throw an `OperationError` instead of
returning an empty value, contradicting the claim that byte flips in
either embedded public key never cause an exception. -/
theorem claim2_tamper_public_key_throws (data : SealInput) (opts : SealOptions)
    (seeds : SealSeeds) :
    unsealData (tamperPublicKey data seeds) opts = .error operationError
  ∧ unsealData (tamperCiphertext data seeds) opts = .ok (.json (Json.obj []))
  ∧ isSealError operationError = false :=
  ⟨unseal_tamperPublicKey data opts seeds, unseal_tamperCiphertext data opts seeds, by decide⟩

/-- Claim C3. The token `aGVsbG8~1` carries major version 1 (not the
recognized current version 2), yet `unsealData` does not treat it as
invalid-and-empty: the version is parsed and never consulted, the payload
(`hello`) is processed anyway, and the `JSON.parse` SyntaxError escapes
the recovery pattern, so `unsealData` throws.  The token is processed
identically to its version-2 twin. -/
theorem claim3_version_not_checked (opts : SealOptions) :
    unsealData (codes "aGVsbG8~1") opts = .error unexpectedTokenError
  ∧ isSealError unexpectedTokenError = false
  ∧ unsealData (codes "aGVsbG8~1") opts = unsealData (codes "aGVsbG8~2") opts :=
  ⟨rfl, by decide, rfl⟩

/-- Claim C4. Password rotation is inoperative: `sealData` and `unsealData`
never read their `_options` argument, so no "highest key id" is selected
for sealing and no key of the set is used for verification; moreover a
token sealed under one key set does not unseal under a later key set — it
throws, as every fresh token does. -/
theorem claim4_passwords_never_used (data : SealInput) (tok : List Nat)
    (opts opts2 : SealOptions) (seeds : SealSeeds) :
    sealData data opts seeds = sealData data opts2 seeds
  ∧ unsealData tok opts = unsealData tok opts2
  ∧ unsealData (sealData data opts seeds) opts2 = .error operationError :=
  ⟨rfl, rfl, unseal_sealData data opts opts2 seeds⟩

/-- Claim C5. A structurally malformed token is not recovered to an empty
value: `!!!` (no version delimiter, payload not base64url-decodable) makes
the rfc4648 parser throw `Invalid character`, which does not match the
recovery pattern, so `unsealData` raises it to the caller. -/
theorem claim5_malformed_token_throws (opts : SealOptions) :
    unsealData (codes "!!!") opts = .error invalidCharacterError
  ∧ isSealError invalidCharacterError = false :=
  ⟨rfl, by decide⟩

/-- Claim C6. For every session, key map, configuration and randomness, the
two transports behave identically: both `save()` implementations reject
(every token exceeds the 4096 limit, so the differently-computed length
checks never disagree on a reachable session), both `destroy()`
implementations clear the same fields, and the header transport's emitted
destroy cookie is exactly the serialization of the cookie-store
transport's `set` call — only the write mechanics differ. -/
theorem claim6_transports_agree (s : JsObject) (pw : List (String × String))
    (cfg : SessionConfig) (seeds : SealSeeds) (res : List (List Nat)) :
    saveHeader s pw cfg seeds false res = .error cookieTooBigError
  ∧ saveStore s pw cfg seeds = .error cookieTooBigError
  ∧ (destroyHeader s cfg res).1 = (destroyStore s cfg).1
  ∧ (destroyHeader s cfg res).2
      = setCookie res (serializeCookie (codes (destroyStore s cfg).2.name)
          (destroyStore s cfg).2.value (destroyStore s cfg).2.options) :=
  ⟨saveHeader_error s pw cfg seeds res, saveStore_error s pw cfg seeds, rfl, rfl⟩

/-- Claim C7. The size guard itself fires as claimed — an oversized cookie is
refused with a usage error and nothing is emitted — but it fires on
*every* session: each token is at least 6174 characters (the embedded
ML-DSA signature alone is 6172 base64url characters), so `save()` can
never succeed on either transport and the within-limit half of the claim
is unsatisfiable. -/
theorem claim7_size_guard_always_trips (data : SealInput) (opts : SealOptions)
    (seeds : SealSeeds) (s : JsObject) (pw : List (String × String))
    (cfg : SessionConfig) (res : List (List Nat)) :
    4096 < (sealData data opts seeds).length
  ∧ saveHeader s pw cfg seeds false res = .error cookieTooBigError
  ∧ saveStore s pw cfg seeds = .error cookieTooBigError :=
  ⟨sealData_length_gt data opts seeds, saveHeader_error s pw cfg seeds res,
   saveStore_error s pw cfg seeds⟩

/-- Claim C8. The ttl-to-maxAge mapping: the default ttl 1209600 yields
maxAge 1209540; ttl 0 yields maxAge 2147483647; an explicit
`cookieOptions.maxAge: undefined` yields ttl 0 and a present-but-undefined
maxAge that the cookie serializer omits entirely. -/
theorem claim8_ttl_maxAge_mapping :
    (getSessionConfig ⟨"sid", .str "p", none, none⟩).cookieOptions.maxAge
        = some (some 1209540)
  ∧ (getSessionConfig ⟨"sid", .str "p", none, none⟩).ttl = 1209600
  ∧ (getSessionConfig ⟨"sid", .str "p", some 0, none⟩).cookieOptions.maxAge
        = some (some 2147483647)
  ∧ (getSessionConfig ⟨"sid", .str "p", none,
        some ⟨none, none, none, none, none, some none⟩⟩).ttl = 0
  ∧ (getSessionConfig ⟨"sid", .str "p", none,
        some ⟨none, none, none, none, none, some none⟩⟩).cookieOptions.maxAge = some none
  ∧ serializeCookie (codes "sid") []
      (getSessionConfig ⟨"sid", .str "p", none,
        some ⟨none, none, none, none, none, some none⟩⟩).cookieOptions
      = codes "sid=; Path=/; HttpOnly; Secure; SameSite=Lax" := by
  exact ⟨by decide, by decide, by decide, by decide, by decide, by decide⟩

/-- Claim C9. `destroy()` deletes every own enumerable field, emits exactly
one cookie with the same name and attributes except `maxAge: 0`, and a
subsequent `save()` without repopulating seals exactly the empty value. -/
theorem claim9_destroy_clears_state (s : JsObject) (pw : List (String × String))
    (cfg : SessionConfig) (seeds : SealSeeds) (res : List (List Nat)) :
    objectKeys (destroyFields s) = []
  ∧ (destroyHeader s cfg res).1 = destroyFields s
  ∧ (destroyHeader s cfg res).2
      = res ++ [serializeCookie (codes cfg.cookieName) [] (setMaxAgeZero cfg.cookieOptions)]
  ∧ (setMaxAgeZero cfg.cookieOptions).maxAge = some (some 0)
  ∧ (setMaxAgeZero cfg.cookieOptions).httpOnly = cfg.cookieOptions.httpOnly
  ∧ (setMaxAgeZero cfg.cookieOptions).secure = cfg.cookieOptions.secure
  ∧ (setMaxAgeZero cfg.cookieOptions).sameSite = cfg.cookieOptions.sameSite
  ∧ (setMaxAgeZero cfg.cookieOptions).path = cfg.cookieOptions.path
  ∧ (setMaxAgeZero cfg.cookieOptions).domain = cfg.cookieOptions.domain
  ∧ sessionSeal (destroyFields s) pw cfg seeds
      = sealData (.json (Json.obj [])) ⟨.map pw, cfg.ttl⟩ seeds := by
  refine ⟨objectKeys_destroyFields s, rfl, rfl, rfl, rfl, rfl, rfl, rfl, rfl, ?_⟩
  rw [sessionSeal, sessionToJson_destroyFields]

/-- Claim C10. On a session whose fields do not use the three operation
names, `defineProperties` installs `save`, `destroy` and `updateConfig` as
non-enumerable own properties; they are invisible to `Object.keys`, they
survive `destroy()` (which deletes only the enumerable fields), and they
never appear in the value `save()` passes to `sealData`. -/
theorem claim10_methods_non_enumerable (s : JsObject)
    (h1 : ownProp? s "updateConfig" = none) (h2 : ownProp? s "save" = none)
    (h3 : ownProp? s "destroy" = none) :
    ownProp? (installSessionMethods s) "updateConfig"
        = some ⟨"updateConfig", .fn "updateConfig", false⟩
  ∧ ownProp? (installSessionMethods s) "save" = some ⟨"save", .fn "save", false⟩
  ∧ ownProp? (installSessionMethods s) "destroy" = some ⟨"destroy", .fn "destroy", false⟩
  ∧ objectKeys (installSessionMethods s) = objectKeys s
  ∧ ownProp? (destroyFields (installSessionMethods s)) "updateConfig"
        = some ⟨"updateConfig", .fn "updateConfig", false⟩
  ∧ ownProp? (destroyFields (installSessionMethods s)) "save"
        = some ⟨"save", .fn "save", false⟩
  ∧ ownProp? (destroyFields (installSessionMethods s)) "destroy"
        = some ⟨"destroy", .fn "destroy", false⟩
  ∧ sessionToJson (installSessionMethods s) = sessionToJson s := by
  have h1' := h1
  have h2' := h2
  have h3' := h3
  rw [ownProp?] at h1' h2' h3'
  have c1 : (objectKeys s).contains "updateConfig" = false := by
    have := not_mem_objectKeys_of_ownProp?_none s _ h1
    simp [List.contains, List.elem_eq_mem, this]
  have c2 : (objectKeys s).contains "save" = false := by
    have := not_mem_objectKeys_of_ownProp?_none s _ h2
    simp [List.contains, List.elem_eq_mem, this]
  have c3 : (objectKeys s).contains "destroy" = false := by
    have := not_mem_objectKeys_of_ownProp?_none s _ h3
    simp [List.contains, List.elem_eq_mem, this]
  have hkeys : objectKeys (s ++ sessionMethodProps) = objectKeys s := by
    rw [objectKeys, objectKeys, List.filter_append, List.map_append]
    rw [show sessionMethodProps.filter (·.enumerable) = [] from rfl]
    simp
  have m1 := not_mem_objectKeys_of_ownProp?_none s _ h1
  have m2 := not_mem_objectKeys_of_ownProp?_none s _ h2
  have m3 := not_mem_objectKeys_of_ownProp?_none s _ h3
  have hfilterM : sessionMethodProps.filter
      (fun p => !((objectKeys s).contains p.name)) = sessionMethodProps := by
    simp [sessionMethodProps, List.filter, c1, c2, c3, m1, m2, m3]
  have hfind_s : ∀ n, ownProp? s n = none →
      (s.filter (fun p => !((objectKeys s).contains p.name))).find? (fun p => p.name == n)
        = none := by
    intro n hn
    rw [List.find?_eq_none]
    intro x hx
    exact List.find?_eq_none.mp (by rw [ownProp?] at hn; exact hn) x (List.mem_filter.mp hx).1
  rw [installSessionMethods_absent s h1 h2 h3]
  refine ⟨?_, ?_, ?_, hkeys, ?_, ?_, ?_, ?_⟩
  · rw [ownProp?, find?_append_none _ _ _ h1']
    rfl
  · rw [ownProp?, find?_append_none _ _ _ h2']
    rfl
  · rw [ownProp?, find?_append_none _ _ _ h3']
    rfl
  · rw [destroyFields, hkeys, deleteKeys, List.filter_append, hfilterM, ownProp?,
      find?_append_none _ _ _ (hfind_s _ h1)]
    rfl
  · rw [destroyFields, hkeys, deleteKeys, List.filter_append, hfilterM, ownProp?,
      find?_append_none _ _ _ (hfind_s _ h2)]
    rfl
  · rw [destroyFields, hkeys, deleteKeys, List.filter_append, hfilterM, ownProp?,
      find?_append_none _ _ _ (hfind_s _ h3)]
    rfl
  · rw [sessionToJson, sessionToJson, List.filterMap_append]
    norm_num [sessionMethodProps]

/-- Witness for **C10**: a session with one ordinary enumerable field
satisfies the hypotheses. -/
theorem claim10_witness :
    ownProp? (installSessionMethods [⟨"userId", .data (.num 42), true⟩]) "updateConfig"
        = some ⟨"updateConfig", .fn "updateConfig", false⟩
  ∧ ownProp? (installSessionMethods [⟨"userId", .data (.num 42), true⟩]) "save"
        = some ⟨"save", .fn "save", false⟩
  ∧ ownProp? (installSessionMethods [⟨"userId", .data (.num 42), true⟩]) "destroy"
        = some ⟨"destroy", .fn "destroy", false⟩
  ∧ objectKeys (installSessionMethods [⟨"userId", .data (.num 42), true⟩])
        = objectKeys [⟨"userId", .data (.num 42), true⟩]
  ∧ ownProp? (destroyFields (installSessionMethods [⟨"userId", .data (.num 42), true⟩]))
        "updateConfig" = some ⟨"updateConfig", .fn "updateConfig", false⟩
  ∧ ownProp? (destroyFields (installSessionMethods [⟨"userId", .data (.num 42), true⟩]))
        "save" = some ⟨"save", .fn "save", false⟩
  ∧ ownProp? (destroyFields (installSessionMethods [⟨"userId", .data (.num 42), true⟩]))
        "destroy" = some ⟨"destroy", .fn "destroy", false⟩
  ∧ sessionToJson (installSessionMethods [⟨"userId", .data (.num 42), true⟩])
        = sessionToJson [⟨"userId", .data (.num 42), true⟩] :=
  claim10_methods_non_enumerable [⟨"userId", .data (.num 42), true⟩] rfl rfl rfl

end IronSession
